import Mathlib

/-!
# pg-backuper: dump, upload, prune

A shallow embedding of `main.go`: the three steps `backupPostgreSQL`,
`uploadToDrive`, `deleteOldBackups` and their driver `main`, over an explicit
world (local file names, the remote folder, a clock, and an oracle deciding
which external calls fail).
-/

namespace PgBackuper

/-! ## binary64 arithmetic used by `Duration.Hours` -/

/-- Round a rational to the nearest integer, ties going to the even neighbour. -/
def roundHalfEven (t : ℚ) : ℤ :=
  if t - ⌊t⌋ < 1 / 2 then ⌊t⌋
  else if 1 / 2 < t - ⌊t⌋ then ⌊t⌋ + 1
  else if ⌊t⌋ % 2 = 0 then ⌊t⌋ else ⌊t⌋ + 1

/-- Exponent of the last mantissa bit of the binary64 numbers around a positive
`x`: 53 significant bits, subnormals bottoming out at `2^-1074`. -/
def f64Ulp (x : ℚ) : ℤ := max (Int.log 2 x - 52) (-1074)

/-- Round-to-nearest-even of a positive rational to binary64. -/
def f64RoundPos (x : ℚ) : ℚ := (roundHalfEven (x / 2 ^ f64Ulp x) : ℚ) * 2 ^ f64Ulp x

/-- Round-to-nearest-even of a rational to binary64 (the value of the result as
a rational). Overflow to infinity is not represented: the values rounded in
`Duration.Hours` are int64 counts and their quotients, far below `2^1024`. -/
def f64Round (x : ℚ) : ℚ :=
  if x = 0 then 0 else if 0 < x then f64RoundPos x else -f64RoundPos (-x)

/-- Conversion `float64(n)` of an integer. -/
def f64OfInt (n : ℤ) : ℚ := f64Round n

/-- Sum `a + b` in float64. -/
def f64Add (a b : ℚ) : ℚ := f64Round (a + b)

/-- Quotient `a / b` in float64. -/
def f64Div (a b : ℚ) : ℚ := f64Round (a / b)

/-- A positive normal binary64 value: a 53-bit mantissa with its leading bit set,
scaled by a power of two within the exponent range. -/
def IsF64Pos (r : ℚ) : Prop :=
  ∃ M k : ℤ, 2 ^ 52 ≤ M ∧ M < 2 ^ 53 ∧ -1074 ≤ k ∧ r = (M : ℚ) * 2 ^ k

/-! ## `time.Duration` and `time.Time` -/

/-- Go's `time.Hour`, in nanoseconds. -/
def Hour : ℤ := 3600000000000

/-- Largest `time.Duration` (an int64 count of nanoseconds). -/
def maxDuration : ℤ := 2 ^ 63 - 1

/-- Smallest `time.Duration`. -/
def minDuration : ℤ := -(2 ^ 63)

/-- Go's `Time.Sub` on instants given in nanoseconds: the difference, saturated
to the range of `Duration`. -/
def Time.Sub (t u : ℤ) : ℤ :=
  if maxDuration < t - u then maxDuration
  else if t - u < minDuration then minDuration
  else t - u

/-- Go's `Duration.Hours`:
`hour := d / Hour; nsec := d % Hour; float64(hour) + float64(nsec)/(60*60*1e9)`,
with Go's truncating integer division and remainder. -/
def Duration.Hours (d : ℤ) : ℚ :=
  f64Add (f64OfInt (Int.tdiv d Hour)) (f64Div (f64OfInt (Int.tmod d Hour)) 3600000000000)

/-- The test `now.Sub(createdTime).Hours() > 30*24` of `deleteOldBackups`. -/
def isOld (now created : ℤ) : Bool :=
  decide ((30 * 24 : ℚ) < Duration.Hours (Time.Sub now created))

/-! ## Configuration constants -/

def serviceAccountFile : String := "service_account.json"
def backupFolderID : String := ""
def pgUser : String := "postgres"
def pgPassword : String := ""
def pgDatabase : String := ""
def pgHost : String := "localhost"
def pgPort : String := "5432"
def containerName : String := ""

/-! ## The world outside the program -/

/-- The fields of a `drive.File` that the list request asks for. -/
structure File where
  Id : String
  Name : String
  CreatedTime : String
deriving DecidableEq, Repr

/-- What the program does that is visible from outside: one entry for each call
into the operating system, the clock or the storage provider (with the error it
returned, `none` for `nil`), and one for each line written to the log or to
standard output. -/
inductive Event where
  | timeNow (t : ℤ)
  | osCreate (name : String) (err : Option String)
  | cmdRun (args : List String) (err : Option String)
  | fileClose (name : String)
  | osReadFile (name : String) (err : Option String)
  | credentialsFromJSON (err : Option String)
  | newService (err : Option String)
  | osOpen (name : String) (err : Option String)
  | filesCreate (name parent : String) (err : Option String)
  | filesList (query fields : String) (err : Option String)
  | filesDelete (id : String) (err : Option String)
  | osRemove (name : String) (err : Option String)
  | logPrintf (msg : String)
  | logFatalf (msg : String)
  | stdout (msg : String)
deriving DecidableEq, Repr

/-- State of everything the program talks to. External calls are numbered in
the order they are made; `clock` and `fault` say what the wall clock reads and
which error, if any, the environment injects at each call. `fs` holds the names
of the local files that exist (their contents play no role), `drive` the objects
of the backup folder in listing order, `pageSize` how many of them one list
request returns. `parseRFC3339` and `format` stand for Go's
`time.Parse(time.RFC3339, ·)` and `Time.Format("20060102_150405")` on instants
counted in nanoseconds; `newId` and `stamp` are the identifier and creation
time the provider gives to an object created at a given call. -/
structure World where
  step : ℕ
  clock : ℕ → ℤ
  fault : ℕ → Option String
  fs : List String
  drive : List File
  pageSize : ℕ
  parseRFC3339 : String → Option ℤ
  format : ℤ → String
  newId : ℕ → String
  stamp : ℕ → String
  trace : List Event

/-- Append an entry to the trace. -/
def World.emit (w : World) (e : Event) : World := { w with trace := w.trace ++ [e] }

/-- Trace an external call and count it. -/
def World.record (w : World) (e : Event) : World := { w.emit e with step := w.step + 1 }

/-- One external call: it fails with the injected fault if there is one, else
with the error `intrinsic` that the current state forces, else it succeeds and
`effect` is applied. Either way the call is traced and counted. -/
def World.call (w : World) (ev : Option String → Event) (intrinsic : Option String)
    (effect : World → World) : Option String × World :=
  match (w.fault w.step).orElse (fun _ => intrinsic) with
  | some e => (some e, w.record (ev (some e)))
  | none => (none, (effect w).record (ev none))

/-- Go's `time.Now()`. -/
def timeNow (w : World) : ℤ × World :=
  (w.clock w.step, w.record (.timeNow (w.clock w.step)))

/-- Go's `os.Create(name)`: the file exists afterwards. -/
def osCreate (name : String) (w : World) : Option String × World :=
  w.call (.osCreate name) none
    (fun v => { v with fs := if name ∈ v.fs then v.fs else v.fs ++ [name] })

/-- Go's `cmd.Run()` of the dump command, its output going to the open file. -/
def cmdRun (args : List String) (w : World) : Option String × World :=
  w.call (.cmdRun args) none id

/-- Go's `os.ReadFile(name)`. -/
def osReadFile (name : String) (w : World) : Option String × World :=
  w.call (.osReadFile name)
    (if name ∈ w.fs then none else some ("open " ++ name ++ ": no such file or directory")) id

/-- Go's `google.CredentialsFromJSON(ctx, b, drive.DriveFileScope)`. -/
def credentialsFromJSON (w : World) : Option String × World :=
  w.call .credentialsFromJSON none id

/-- Go's `drive.NewService(ctx, option.WithCredentials(config))`. -/
def newService (w : World) : Option String × World :=
  w.call .newService none id

/-- Go's `os.Open(name)`. -/
def osOpen (name : String) (w : World) : Option String × World :=
  w.call (.osOpen name)
    (if name ∈ w.fs then none else some ("open " ++ name ++ ": no such file or directory")) id

/-- The request `srv.Files.Create(f).Media(file).Do()`: a new object in the folder. -/
def filesCreate (name parent : String) (w : World) : Option String × World :=
  w.call (.filesCreate name parent) none
    (fun v => { v with drive := v.drive ++ [⟨v.newId v.step, name, v.stamp v.step⟩] })

/-- The request `srv.Files.List().Q(query).Fields(fields).Do()`: the first page
of the folder. -/
def filesList (query fields : String) (w : World) : Except String (List File) × World :=
  match w.call (.filesList query fields) none id with
  | (some e, v) => (.error e, v)
  | (none, v) => (.ok (w.drive.take w.pageSize), v)

/-- The request `srv.Files.Delete(id).Do()`. -/
def filesDelete (id : String) (w : World) : Option String × World :=
  w.call (.filesDelete id)
    (if id ∈ w.drive.map File.Id then none else some ("File not found: " ++ id))
    (fun v => { v with drive := v.drive.filter (fun g => g.Id ≠ id) })

/-- Go's `os.Remove(name)`. -/
def osRemove (name : String) (w : World) : Option String × World :=
  w.call (.osRemove name)
    (if name ∈ w.fs then none else some ("remove " ++ name ++ ": no such file or directory"))
    (fun v => { v with fs := v.fs.filter (fun n => n ≠ name) })

/-! ## The program -/

/-- Source `backupPostgreSQL`: create the output file, run the dump into it. -/
def backupPostgreSQL (filename : String) (w : World) : Option String × World :=
  match osCreate filename w with
  | (some err, w) => (some err, w)
  | (none, w) =>
    match cmdRun ["docker", "exec", containerName, "pg_dump", "-U", pgUser, "-F", "c",
        pgDatabase] w with
    | (err, w) => (err, w.emit (.fileClose filename))

/-- Source `uploadToDrive`. -/
def uploadToDrive (filename : String) (w : World) : Option String × World :=
  match osReadFile serviceAccountFile w with
  | (some err, w) => (some ("failed to read service account file: " ++ err), w)
  | (none, w) =>
    match credentialsFromJSON w with
    | (some err, w) => (some ("failed to create credentials from JSON: " ++ err), w)
    | (none, w) =>
      match newService w with
      | (some err, w) => (some ("failed to create Drive client: " ++ err), w)
      | (none, w) =>
        match osOpen filename w with
        | (some err, w) => (some ("failed to open file: " ++ err), w)
        | (none, w) =>
          match filesCreate filename backupFolderID w with
          | (some err, w) =>
            (some ("failed to upload file to Drive: " ++ err), w.emit (.fileClose filename))
          | (none, w) =>
            (none, (w.emit (.stdout ("File uploaded successfully: " ++ filename ++ "\n"))).emit
              (.fileClose filename))

/-- The `for` loop of source `deleteOldBackups` (lines 142-159), `cnt` being
`deletedCount`. -/
def pruneLoop (now : ℤ) : List File → ℕ → World → ℕ × World
  | [], cnt, w => (cnt, w)
  | file :: rest, cnt, w =>
    match w.parseRFC3339 file.CreatedTime with
    | none =>
      pruneLoop now rest cnt
        (w.emit (.logPrintf ("Skipping file " ++ file.Name ++ ": invalid date format\n")))
    | some createdTime =>
      if isOld now createdTime then
        match filesDelete file.Id w with
        | (some err, w) =>
          pruneLoop now rest cnt
            (w.emit (.logPrintf ("Failed to delete " ++ file.Name ++ ": " ++ err ++ "\n")))
        | (none, w) =>
          pruneLoop now rest (cnt + 1)
            (w.emit (.stdout ("Deleted old backup: " ++ file.Name ++ "\n")))
      else pruneLoop now rest cnt w

/-- Source `deleteOldBackups`. -/
def deleteOldBackups (w : World) : Option String × World :=
  match osReadFile serviceAccountFile w with
  | (some err, w) => (some ("failed to read service account file: " ++ err), w)
  | (none, w) =>
    match credentialsFromJSON w with
    | (some err, w) => (some ("failed to create credentials from JSON: " ++ err), w)
    | (none, w) =>
      match newService w with
      | (some err, w) => (some ("failed to create Drive client: " ++ err), w)
      | (none, w) =>
        match filesList ("'" ++ backupFolderID ++ "' in parents") "files(id, name, createdTime)" w with
        | (.error err, w) => (some ("failed to list files: " ++ err), w)
        | (.ok files, w) =>
          match timeNow w with
          | (now, w) =>
            match pruneLoop now files 0 w with
            | (deletedCount, w) =>
              (none, w.emit (.stdout
                ("Cleanup complete. Deleted " ++ toString deletedCount ++ " old backups.\n")))

/-- Source `main`; the first component is the exit status (`log.Fatalf` exits
with 1). -/
def main (w : World) : ℕ × World :=
  match timeNow w with
  | (t, w1) =>
    let backupFile := "backup_" ++ w.format t ++ ".sql"
    match backupPostgreSQL backupFile w1 with
    | (some err, w2) => (1, w2.emit (.logFatalf ("Failed to create backup: " ++ err)))
    | (none, w2) =>
      match uploadToDrive backupFile w2 with
      | (some err, w3) => (1, w3.emit (.logFatalf ("Failed to upload to Google Drive: " ++ err)))
      | (none, w3) =>
        let w4 :=
          match osRemove backupFile w3 with
          | (some err, v) =>
            v.emit (.logPrintf ("Warning: Failed to clean up local backup file: " ++ err))
          | (none, v) =>
            v.emit (.logPrintf ("Successfully cleaned up local backup file: " ++ backupFile))
        let w5 :=
          match deleteOldBackups w4 with
          | (some err, v) =>
            v.emit (.logPrintf ("Warning: Failed to delete old backups: " ++ err))
          | (none, v) => v
        (0, w5.emit (.stdout "Backup and upload successful!\n"))

/-! ## Observations on a run -/

/-- The entries a run starting in `w` and ending in `v` added to the trace. -/
def World.since (v w : World) : List Event := v.trace.drop w.trace.length

/-- Identifiers for which a delete request was issued, in order. -/
def deleteRequests (tr : List Event) : List String :=
  tr.filterMap (fun e => match e with
    | .filesDelete id _ => some id
    | _ => none)

/-- Identifiers whose delete request succeeded, in order. -/
def deletedIds (tr : List Event) : List String :=
  tr.filterMap (fun e => match e with
    | .filesDelete id none => some id
    | _ => none)

/-- The retention rule in the words of the specification: the timestamp parses
to an instant `T` and `now - T` is strictly more than 720 hours. -/
def expired (parse : String → Option ℤ) (now : ℤ) (f : File) : Bool :=
  match parse f.CreatedTime with
  | some T => decide (720 * Hour < now - T)
  | none => false

/-- Entries that only the loop of `deleteOldBackups` writes: a delete request,
a log line, a line on standard output. -/
def Event.isLoopEntry : Event → Bool
  | .filesDelete _ _ => true
  | .logPrintf _ => true
  | .stdout _ => true
  | _ => false

/-- Entries written by the four calls that open `deleteOldBackups`, and its clock
reading. -/
def Event.isSetupEntry : Event → Bool
  | .osReadFile _ _ => true
  | .credentialsFromJSON _ => true
  | .newService _ => true
  | .filesList _ _ _ => true
  | .timeNow _ => true
  | _ => false

/-- The four calls before the loop of `deleteOldBackups` all succeed: the
credential file is there and no fault is injected into the read, the credential
parse, the client construction or the list request. -/
def listingSucceeds (w : World) : Prop :=
  serviceAccountFile ∈ w.fs ∧ w.fault w.step = none ∧ w.fault (w.step + 1) = none ∧
    w.fault (w.step + 2) = none ∧ w.fault (w.step + 3) = none

/-- The entries the four successful calls and the clock reading add to the trace. -/
def listingEntries (w : World) : List Event :=
  [.osReadFile serviceAccountFile none, .credentialsFromJSON none, .newService none,
   .filesList ("'" ++ backupFolderID ++ "' in parents") "files(id, name, createdTime)" none,
   .timeNow (w.clock (w.step + 4))]

/-- The world in which the loop of `deleteOldBackups` starts when the four calls
before it succeed: those calls and the clock reading are traced and counted. -/
def afterSetup (w : World) : World :=
  ((((w.record (.osReadFile serviceAccountFile none)).record
    (.credentialsFromJSON none)).record (.newService none)).record
    (.filesList ("'" ++ backupFolderID ++ "' in parents") "files(id, name, createdTime)"
      none)).record (.timeNow (w.clock (w.step + 4)))

/-- Parser for the timestamps of the example worlds below. -/
def exampleParse (s : String) : Option ℤ :=
  if s = "2023-12-23T00:00:00Z" then some 1703289600000000000
  else if s = "2024-01-01T00:00:00Z" then some 1704067200000000000
  else if s = "2024-01-02T00:00:00Z" then some 1704153600000000000
  else if s = "2024-01-03T00:00:00Z" then some 1704240000000000000
  else if s = "2024-01-22T00:00:00Z" then some 1705881600000000000
  else if s = "2024-02-01T00:00:00Z" then some 1706745600000000000
  else none

/-- Three remote objects aged 10, 29 and 31 days on 2024-02-01T00:00:00Z, nothing
failing. -/
def threeBackups : World where
  step := 0
  clock := fun _ => 1706745600000000000
  fault := fun _ => none
  fs := ["service_account.json"]
  drive := [⟨"id10", "ten.sql", "2024-01-22T00:00:00Z"⟩,
            ⟨"id29", "twentynine.sql", "2024-01-03T00:00:00Z"⟩,
            ⟨"id31", "thirtyone.sql", "2024-01-01T00:00:00Z"⟩]
  pageSize := 100
  parseRFC3339 := exampleParse
  format := fun _ => "20240201_000000"
  newId := fun n => "new" ++ toString n
  stamp := fun _ => "2024-02-01T00:00:00Z"
  trace := []

/-- Four remote objects on 2024-02-01T00:00:00Z: one 31 days old whose delete
request (the sixth external call) fails, one with an unreadable timestamp, one
exactly 720 hours old, one 40 days old. -/
def mixedBackups : World where
  step := 0
  clock := fun _ => 1706745600000000000
  fault := fun n => if n = 5 then some "googleapi: Error 500" else none
  fs := ["service_account.json"]
  drive := [⟨"id31", "thirtyone.sql", "2024-01-01T00:00:00Z"⟩,
            ⟨"idbad", "bad.sql", "yesterday"⟩,
            ⟨"id30", "thirty.sql", "2024-01-02T00:00:00Z"⟩,
            ⟨"id40", "forty.sql", "2023-12-23T00:00:00Z"⟩]
  pageSize := 100
  parseRFC3339 := exampleParse
  format := fun _ => "20240201_000000"
  newId := fun n => "new" ++ toString n
  stamp := fun _ => "2024-02-01T00:00:00Z"
  trace := []

/-- Entries that the dump step and the fatal exit write. -/
def Event.isDumpEntry : Event → Bool
  | .timeNow _ => true
  | .osCreate _ _ => true
  | .cmdRun _ _ => true
  | .fileClose _ => true
  | .logFatalf _ => true
  | _ => false

/-- Entries that the upload step writes. -/
def Event.isUploadEntry : Event → Bool
  | .osReadFile _ _ => true
  | .credentialsFromJSON _ => true
  | .newService _ => true
  | .osOpen _ _ => true
  | .filesCreate _ _ _ => true
  | .stdout _ => true
  | .fileClose _ => true
  | _ => false

/-- Entries of the local cleanup and of the requests of the prune step. -/
def Event.isCleanupOrPrune : Event → Bool
  | .osRemove _ _ => true
  | .filesList _ _ _ => true
  | .filesDelete _ _ => true
  | _ => false

/-- The arguments of the dump command. -/
def dumpArgs : List String :=
  ["docker", "exec", containerName, "pg_dump", "-U", pgUser, "-F", "c", pgDatabase]

/-- All five sub-steps of the upload succeed: credential read, credential parse,
client construction, local file open, create request. -/
def uploadSucceeds (name : String) (w : World) : Prop :=
  w.fault w.step = none ∧ serviceAccountFile ∈ w.fs ∧ w.fault (w.step + 1) = none ∧
    w.fault (w.step + 2) = none ∧ w.fault (w.step + 3) = none ∧ name ∈ w.fs ∧
    w.fault (w.step + 4) = none

/-- Names of the local files that were created, in order. -/
def createdFiles (tr : List Event) : List String :=
  tr.filterMap (fun e => match e with
    | .osCreate name none => some name
    | _ => none)

/-- Names under which an object was uploaded, in order. -/
def uploadedNames (tr : List Event) : List String :=
  tr.filterMap (fun e => match e with
    | .filesCreate name _ none => some name
    | _ => none)

/-- The name `main` gives to the local artifact: `backup_<YYYYMMDD_HHMMSS>.sql`
from the clock reading of its first call. -/
def backupName (w : World) : String := "backup_" ++ w.format (w.clock w.step) ++ ".sql"

/-- The world of `threeBackups` in which the dump command (third external call)
exits with a non-zero status. -/
def dumpFails : World :=
  { threeBackups with fault := fun n => if n = 2 then some "exit status 1" else none }

/-- The world of `threeBackups` in which the create request (eighth external
call) is refused. -/
def uploadFails : World :=
  { threeBackups with fault := fun n => if n = 7 then some "googleapi: Error 403" else none }

/-- The world of `threeBackups` without a credential file. -/
def noCredentials : World := { threeBackups with fs := [] }

/-- The world of `threeBackups` in which removing the local file (ninth external
call) fails. -/
def cleanupFails : World :=
  { threeBackups with fault := fun n => if n = 8 then some "permission denied" else none }

/-- One remote object 31 days old; the first delete request (the sixth external
call) fails, every later call succeeds. -/
def deleteFailsOnce : World :=
  { threeBackups with
    drive := [⟨"id31", "thirtyone.sql", "2024-01-01T00:00:00Z"⟩]
    fault := fun n => if n = 5 then some "googleapi: Error 500" else none }

/-- One remote object exactly 720 hours old at the first clock reading of the
prune step (fifth external call); the clock has moved on by one nanosecond at
every later reading. -/
def agesBetweenRuns : World :=
  { threeBackups with
    drive := [⟨"id30", "thirty.sql", "2024-01-02T00:00:00Z"⟩]
    clock := fun n => if n ≤ 4 then 1706745600000000000 else 1706745600000000001 }

/-- The clock readings of a run, in order. -/
def clockReadings (tr : List Event) : List ℤ :=
  tr.filterMap (fun e => match e with
    | .timeNow t => some t
    | _ => none)

/-- Everything of the world that the prune step leaves as it was: the clock, the
fault oracle, the local files, the page size and the time library. -/
def World.untouched (v w : World) : Prop :=
  v.clock = w.clock ∧ v.fault = w.fault ∧ v.fs = w.fs ∧ v.pageSize = w.pageSize ∧
    v.parseRFC3339 = w.parseRFC3339 ∧ v.format = w.format

/-! ### Rounding lemmas -/

theorem roundHalfEven_ge {t : ℚ} {M : ℤ} (h : (M : ℚ) ≤ t) : M ≤ roundHalfEven t := by
  have hf : M ≤ ⌊t⌋ := Int.le_floor.mpr h
  unfold roundHalfEven
  split_ifs <;> omega

theorem roundHalfEven_le {t : ℚ} {M : ℤ} (h : t ≤ (M : ℚ)) : roundHalfEven t ≤ M := by
  rcases eq_or_lt_of_le h with h1 | h1
  · subst h1
    unfold roundHalfEven
    simp
  · have hf : ⌊t⌋ < M := Int.floor_lt.mpr h1
    unfold roundHalfEven
    split_ifs <;> omega

theorem f64Ulp_ge {x : ℚ} {M k : ℤ} (hM : 2 ^ 52 ≤ M)
    (hx : (M : ℚ) * 2 ^ k ≤ x) : k ≤ f64Ulp x := by
  have h2k : (0 : ℚ) < 2 ^ k := zpow_pos (by norm_num) k
  have hMq : (2 : ℚ) ^ (52 : ℤ) ≤ (M : ℚ) := by
    have : ((2 ^ 52 : ℤ) : ℚ) ≤ (M : ℚ) := Int.cast_le.mpr hM
    norm_num at this ⊢
    exact this
  have hpos : (0 : ℚ) < x := lt_of_lt_of_le (mul_pos (lt_of_lt_of_le (by positivity) hMq) h2k) hx
  have h1 : ((2 : ℕ) : ℚ) ^ (k + 52) ≤ x := by
    refine le_trans ?_ hx
    rw [zpow_add₀ (by norm_num), mul_comm]
    push_cast
    exact mul_le_mul_of_nonneg_right hMq h2k.le
  have h2 := (Int.zpow_le_iff_le_log (by norm_num : 1 < 2) hpos).mp h1
  unfold f64Ulp
  omega

theorem f64Ulp_le {x : ℚ} {M k : ℤ} (hk : -1074 ≤ k) (hM : M < 2 ^ 53) (hx0 : 0 < x)
    (hx : x ≤ (M : ℚ) * 2 ^ k) : f64Ulp x ≤ k := by
  have h2k : (0 : ℚ) < 2 ^ k := zpow_pos (by norm_num) k
  have hMq : (M : ℚ) < (2 : ℚ) ^ (53 : ℤ) := by
    have : (M : ℚ) < ((2 ^ 53 : ℤ) : ℚ) := Int.cast_lt.mpr hM
    norm_num at this ⊢
    exact this
  have h1 : x < ((2 : ℕ) : ℚ) ^ (k + 53) := by
    refine lt_of_le_of_lt hx ?_
    rw [zpow_add₀ (by norm_num), mul_comm]
    push_cast
    exact mul_lt_mul_of_pos_left hMq h2k
  have h2 := (Int.lt_zpow_iff_log_lt (by norm_num : 1 < 2) hx0).mp h1
  unfold f64Ulp
  omega

theorem f64RoundPos_ge {x : ℚ} {M k : ℤ} (hM : 2 ^ 52 ≤ M) (hM' : M < 2 ^ 53) (hk : -1074 ≤ k)
    (hx : (M : ℚ) * 2 ^ k ≤ x) : (M : ℚ) * 2 ^ k ≤ f64RoundPos x := by
  have he := f64Ulp_ge hM hx
  have h2k : (0 : ℚ) < 2 ^ k := zpow_pos (by norm_num) k
  have hMpos : (0 : ℚ) < (M : ℚ) := by
    have : (0 : ℤ) < M := lt_of_lt_of_le (by norm_num) hM
    exact_mod_cast this
  have hpos : (0 : ℚ) < x := lt_of_lt_of_le (mul_pos hMpos h2k) hx
  have h2e : (0 : ℚ) < 2 ^ f64Ulp x := zpow_pos (by norm_num) _
  unfold f64RoundPos
  rcases eq_or_lt_of_le he with h | h
  · rw [← h]
    have h1 : (M : ℚ) ≤ x / 2 ^ k := by rw [le_div_iff₀ h2k]; exact hx
    have h2 : (M : ℚ) ≤ (roundHalfEven (x / 2 ^ k) : ℚ) := by exact_mod_cast roundHalfEven_ge h1
    exact mul_le_mul_of_nonneg_right h2 h2k.le
  · have hlog : Int.log 2 x = f64Ulp x + 52 := by
      have : f64Ulp x = max (Int.log 2 x - 52) (-1074) := rfl
      omega
    have h52 : (((2 : ℤ) ^ 52 : ℤ) : ℚ) ≤ x / 2 ^ f64Ulp x := by
      rw [le_div_iff₀ h2e]
      have h3 : ((2 : ℕ) : ℚ) ^ Int.log 2 x ≤ x := Int.zpow_log_le_self (by norm_num) hpos
      rw [hlog, zpow_add₀ (by norm_num)] at h3
      rw [mul_comm]
      push_cast at h3 ⊢
      norm_num at h3 ⊢
      exact h3
    have h4 : (((2 : ℤ) ^ 52 : ℤ) : ℚ) ≤ (roundHalfEven (x / 2 ^ f64Ulp x) : ℚ) := by
      exact_mod_cast roundHalfEven_ge h52
    have h5 : (M : ℚ) ≤ 2 ^ 53 := by
      have : (M : ℚ) ≤ (((2 : ℤ) ^ 53 : ℤ) : ℚ) := Int.cast_le.mpr hM'.le
      norm_num at this ⊢
      exact this
    have h6 : (2 : ℚ) ^ (k + 1) ≤ 2 ^ f64Ulp x := zpow_le_zpow_right₀ (by norm_num) (by omega)
    calc (M : ℚ) * 2 ^ k ≤ 2 ^ 53 * 2 ^ k := mul_le_mul_of_nonneg_right h5 h2k.le
      _ = (((2 : ℤ) ^ 52 : ℤ) : ℚ) * 2 ^ (k + 1) := by
          rw [zpow_add₀ (by norm_num)]; norm_num; ring
      _ ≤ (((2 : ℤ) ^ 52 : ℤ) : ℚ) * 2 ^ f64Ulp x :=
          mul_le_mul_of_nonneg_left h6 (by norm_num)
      _ ≤ _ := mul_le_mul_of_nonneg_right h4 h2e.le

theorem f64RoundPos_le {x : ℚ} {M k : ℤ} (hM : 2 ^ 52 ≤ M) (hM' : M < 2 ^ 53) (hk : -1074 ≤ k)
    (hx0 : 0 < x) (hx : x ≤ (M : ℚ) * 2 ^ k) : f64RoundPos x ≤ (M : ℚ) * 2 ^ k := by
  have he := f64Ulp_le hk hM' hx0 hx
  have h2k : (0 : ℚ) < 2 ^ k := zpow_pos (by norm_num) k
  have h2e : (0 : ℚ) < 2 ^ f64Ulp x := zpow_pos (by norm_num) _
  unfold f64RoundPos
  rcases eq_or_lt_of_le he with h | h
  · rw [h]
    have h1 : x / 2 ^ k ≤ (M : ℚ) := by rw [div_le_iff₀ h2k]; exact hx
    have h2 : (roundHalfEven (x / 2 ^ k) : ℚ) ≤ (M : ℚ) := by exact_mod_cast roundHalfEven_le h1
    exact mul_le_mul_of_nonneg_right h2 h2k.le
  · have hlog : Int.log 2 x + 1 ≤ f64Ulp x + 53 := by
      have : f64Ulp x = max (Int.log 2 x - 52) (-1074) := rfl
      omega
    have h53 : x / 2 ^ f64Ulp x ≤ (((2 : ℤ) ^ 53 : ℤ) : ℚ) := by
      rw [div_le_iff₀ h2e]
      have h3 : x < ((2 : ℕ) : ℚ) ^ (Int.log 2 x + 1) :=
        Int.lt_zpow_succ_log_self (by norm_num) x
      have h3' : ((2 : ℕ) : ℚ) ^ (Int.log 2 x + 1) ≤ ((2 : ℕ) : ℚ) ^ (f64Ulp x + 53) :=
        zpow_le_zpow_right₀ (by norm_num) hlog
      have h3'' := le_trans h3.le h3'
      rw [zpow_add₀ (by norm_num)] at h3''
      rw [mul_comm]
      push_cast at h3'' ⊢
      norm_num at h3'' ⊢
      exact h3''
    have h4 : (roundHalfEven (x / 2 ^ f64Ulp x) : ℚ) ≤ (((2 : ℤ) ^ 53 : ℤ) : ℚ) := by
      exact_mod_cast roundHalfEven_le h53
    have h5 : (2 : ℚ) ^ 52 ≤ (M : ℚ) := by
      have : (((2 : ℤ) ^ 52 : ℤ) : ℚ) ≤ (M : ℚ) := Int.cast_le.mpr hM
      norm_num at this ⊢
      exact this
    have h6 : (2 : ℚ) ^ (f64Ulp x + 1) ≤ 2 ^ k := zpow_le_zpow_right₀ (by norm_num) (by omega)
    calc (roundHalfEven (x / 2 ^ f64Ulp x) : ℚ) * 2 ^ f64Ulp x
        ≤ (((2 : ℤ) ^ 53 : ℤ) : ℚ) * 2 ^ f64Ulp x := mul_le_mul_of_nonneg_right h4 h2e.le
      _ = 2 ^ 52 * 2 ^ (f64Ulp x + 1) := by
          rw [zpow_add₀ (by norm_num)]; norm_num; ring
      _ ≤ 2 ^ 52 * 2 ^ k := mul_le_mul_of_nonneg_left h6 (by norm_num)
      _ ≤ (M : ℚ) * 2 ^ k := mul_le_mul_of_nonneg_right h5 h2k.le

theorem IsF64Pos.pos {r : ℚ} (h : IsF64Pos r) : 0 < r := by
  obtain ⟨M, k, hM, _, _, rfl⟩ := h
  have hMpos : (0 : ℚ) < (M : ℚ) := by
    have : (0 : ℤ) < M := lt_of_lt_of_le (by norm_num) hM
    exact_mod_cast this
  exact mul_pos hMpos (zpow_pos (by norm_num) k)

theorem f64RoundPos_nonneg {x : ℚ} (hx : 0 ≤ x) : 0 ≤ f64RoundPos x := by
  unfold f64RoundPos
  have h2e : (0 : ℚ) < 2 ^ f64Ulp x := zpow_pos (by norm_num) _
  have h1 : ((0 : ℤ) : ℚ) ≤ x / 2 ^ f64Ulp x := by
    simpa using div_nonneg hx h2e.le
  have h2 : (0 : ℚ) ≤ (roundHalfEven (x / 2 ^ f64Ulp x) : ℚ) := by
    exact_mod_cast roundHalfEven_ge h1
  exact mul_nonneg h2 h2e.le

theorem f64Round_nonneg {x : ℚ} (hx : 0 ≤ x) : 0 ≤ f64Round x := by
  unfold f64Round
  split_ifs with h0 h1
  · exact le_refl _
  · exact f64RoundPos_nonneg hx
  · exact absurd (lt_of_le_of_ne hx (Ne.symm h0)) h1

theorem f64Round_nonpos {x : ℚ} (hx : x ≤ 0) : f64Round x ≤ 0 := by
  unfold f64Round
  split_ifs with h0 h1
  · exact le_refl _
  · exact absurd h1 (not_lt.mpr hx)
  · exact neg_nonpos.mpr (f64RoundPos_nonneg (neg_nonneg.mpr hx))

/-- Rounding never crosses a representable value from above. -/
theorem f64Round_ge {r x : ℚ} (hr : IsF64Pos r) (hx : r ≤ x) : r ≤ f64Round x := by
  have hpos := lt_of_lt_of_le hr.pos hx
  obtain ⟨M, k, hM, hM', hk, rfl⟩ := hr
  unfold f64Round
  rw [if_neg hpos.ne', if_pos hpos]
  exact f64RoundPos_ge hM hM' hk hx

/-- Rounding never crosses a representable value from below. -/
theorem f64Round_le {r x : ℚ} (hr : IsF64Pos r) (hx : x ≤ r) : f64Round x ≤ r := by
  rcases le_or_lt x 0 with h0 | h0
  · exact le_trans (f64Round_nonpos h0) hr.pos.le
  · obtain ⟨M, k, hM, hM', hk, rfl⟩ := hr
    unfold f64Round
    rw [if_neg h0.ne', if_pos h0]
    exact f64RoundPos_le hM hM' hk h0 hx

theorem isF64Pos_one : IsF64Pos 1 :=
  ⟨2 ^ 52, -52, by norm_num, by norm_num, by norm_num, by norm_num⟩

theorem isF64Pos_719 : IsF64Pos 719 :=
  ⟨719 * 2 ^ 43, -43, by norm_num, by norm_num, by norm_num, by norm_num⟩

theorem isF64Pos_720 : IsF64Pos 720 :=
  ⟨720 * 2 ^ 43, -43, by norm_num, by norm_num, by norm_num, by norm_num⟩

theorem isF64Pos_721 : IsF64Pos 721 :=
  ⟨721 * 2 ^ 43, -43, by norm_num, by norm_num, by norm_num, by norm_num⟩

theorem isF64Pos_hour : IsF64Pos 3600000000000 :=
  ⟨3600000000000 * 2 ^ 11, -11, by norm_num, by norm_num, by norm_num, by norm_num⟩

theorem isF64Pos_tiny : IsF64Pos (1 / 2 ^ 42) :=
  ⟨2 ^ 52, -94, by norm_num, by norm_num, by norm_num, by norm_num⟩

theorem isF64Pos_720_tiny : IsF64Pos (720 + 1 / 2 ^ 42) :=
  ⟨720 * 2 ^ 43 + 2, -43, by norm_num, by norm_num, by norm_num, by norm_num⟩

/-! ### Truncating division by `Hour` -/

theorem tdiv_tmod_hour_nonneg {d : ℤ} (hd : 0 ≤ d) :
    Int.tdiv d Hour = d / 3600000000000 ∧ Int.tmod d Hour = d % 3600000000000 :=
  ⟨Int.tdiv_eq_ediv hd (by decide), Int.tmod_eq_emod hd (by decide)⟩

theorem tdiv_tmod_hour_neg {d : ℤ} (hd : d < 0) :
    Int.tdiv d Hour = -((-d) / 3600000000000) ∧ Int.tmod d Hour = -((-d) % 3600000000000) := by
  have h1 : Int.tdiv d Hour = -((-d) / 3600000000000) := by
    have h := Int.neg_tdiv (-d) Hour
    rw [neg_neg] at h
    rw [h, Int.tdiv_eq_ediv (by omega) (by decide)]
    rfl
  refine ⟨h1, ?_⟩
  have h2 := Int.tmod_add_tdiv d Hour
  rw [h1] at h2
  unfold Hour at h2 ⊢
  omega

/-! ### `Duration.Hours` against 720 -/

theorem hours_le_of_le {d : ℤ} (hd : d ≤ 720 * Hour) : Duration.Hours d ≤ 720 := by
  unfold Duration.Hours f64Add f64Div f64OfInt
  unfold Hour at hd
  rcases lt_or_le d 0 with hneg | hnn
  · obtain ⟨h1, h2⟩ := tdiv_tmod_hour_neg hneg
    have ha : f64Round ((Int.tdiv d Hour : ℤ) : ℚ) ≤ 0 := by
      apply f64Round_nonpos
      have : Int.tdiv d Hour ≤ 0 := by omega
      exact_mod_cast this
    have hn : f64Round ((Int.tmod d Hour : ℤ) : ℚ) ≤ 0 := by
      apply f64Round_nonpos
      have : Int.tmod d Hour ≤ 0 := by omega
      exact_mod_cast this
    have hq : f64Round (f64Round ((Int.tmod d Hour : ℤ) : ℚ) / 3600000000000) ≤ 0 :=
      f64Round_nonpos (div_nonpos_of_nonpos_of_nonneg hn (by norm_num))
    exact le_trans (f64Round_nonpos (add_nonpos ha hq)) (by norm_num)
  · obtain ⟨h1, h2⟩ := tdiv_tmod_hour_nonneg hnn
    by_cases hz : d % 3600000000000 = 0
    · have ha : f64Round ((Int.tdiv d Hour : ℤ) : ℚ) ≤ 720 := by
        apply f64Round_le isF64Pos_720
        have : Int.tdiv d Hour ≤ 720 := by omega
        exact_mod_cast this
      have hq : f64Round (f64Round ((Int.tmod d Hour : ℤ) : ℚ) / 3600000000000) = 0 := by
        rw [h2, hz]
        simp [f64Round]
      rw [hq, add_zero]
      exact f64Round_le isF64Pos_720 ha
    · have ha : f64Round ((Int.tdiv d Hour : ℤ) : ℚ) ≤ 719 := by
        apply f64Round_le isF64Pos_719
        have : Int.tdiv d Hour ≤ 719 := by omega
        exact_mod_cast this
      have hn : f64Round ((Int.tmod d Hour : ℤ) : ℚ) ≤ 3600000000000 := by
        apply f64Round_le isF64Pos_hour
        have : Int.tmod d Hour ≤ 3600000000000 := by omega
        exact_mod_cast this
      have hq : f64Round (f64Round ((Int.tmod d Hour : ℤ) : ℚ) / 3600000000000) ≤ 1 := by
        apply f64Round_le isF64Pos_one
        rw [div_le_one (by norm_num)]
        exact hn
      exact f64Round_le isF64Pos_720 (by linarith)

theorem hours_gt_of_gt {d : ℤ} (hd : 720 * Hour < d) : 720 < Duration.Hours d := by
  unfold Duration.Hours f64Add f64Div f64OfInt
  unfold Hour at hd
  obtain ⟨h1, h2⟩ := tdiv_tmod_hour_nonneg (show 0 ≤ d by omega)
  have hn0 : 0 ≤ f64Round ((Int.tmod d Hour : ℤ) : ℚ) := by
    apply f64Round_nonneg
    have : 0 ≤ Int.tmod d Hour := by omega
    exact_mod_cast this
  by_cases hh : 721 ≤ d / 3600000000000
  · have ha : 721 ≤ f64Round ((Int.tdiv d Hour : ℤ) : ℚ) := by
      apply f64Round_ge isF64Pos_721
      have : 721 ≤ Int.tdiv d Hour := by omega
      exact_mod_cast this
    have hq : 0 ≤ f64Round (f64Round ((Int.tmod d Hour : ℤ) : ℚ) / 3600000000000) :=
      f64Round_nonneg (div_nonneg hn0 (by norm_num))
    have hs : (721 : ℚ) ≤ f64Round ((Int.tdiv d Hour : ℤ) : ℚ)
        + f64Round (f64Round ((Int.tmod d Hour : ℤ) : ℚ) / 3600000000000) := by linarith
    have := f64Round_ge isF64Pos_721 hs
    linarith
  · have ha : 720 ≤ f64Round ((Int.tdiv d Hour : ℤ) : ℚ) := by
      apply f64Round_ge isF64Pos_720
      have : 720 ≤ Int.tdiv d Hour := by omega
      exact_mod_cast this
    have hn : 1 ≤ f64Round ((Int.tmod d Hour : ℤ) : ℚ) := by
      apply f64Round_ge isF64Pos_one
      have : 1 ≤ Int.tmod d Hour := by omega
      exact_mod_cast this
    have hq : 1 / 2 ^ 42 ≤ f64Round (f64Round ((Int.tmod d Hour : ℤ) : ℚ) / 3600000000000) := by
      apply f64Round_ge isF64Pos_tiny
      rw [le_div_iff₀ (by norm_num)]
      refine le_trans ?_ hn
      norm_num
    have hs : (720 + 1 / 2 ^ 42 : ℚ) ≤ f64Round ((Int.tdiv d Hour : ℤ) : ℚ)
        + f64Round (f64Round ((Int.tmod d Hour : ℤ) : ℚ) / 3600000000000) := by linarith
    have := f64Round_ge isF64Pos_720_tiny hs
    have h3 : (0 : ℚ) < 1 / 2 ^ 42 := by norm_num
    linarith

/-- The float64 test of `Duration.Hours` against 720 agrees with the exact
comparison of the nanosecond count against 720 hours. -/
theorem hours_gt_iff (d : ℤ) : (720 : ℚ) < Duration.Hours d ↔ 720 * Hour < d := by
  constructor
  · intro h
    by_contra hc
    exact absurd h (not_lt.mpr (hours_le_of_le (not_lt.mp hc)))
  · exact hours_gt_of_gt

/-- The test of `deleteOldBackups` holds exactly when the saturated age exceeds
720 hours. -/
theorem isOld_iff (now created : ℤ) :
    isOld now created = true ↔ 720 * Hour < Time.Sub now created := by
  unfold isOld
  rw [decide_eq_true_iff]
  norm_num
  exact hours_gt_iff _

/-- Saturation in `Time.Sub` does not change on which side of 720 hours the age
falls. -/
theorem sub_gt_iff (now created : ℤ) :
    720 * Hour < Time.Sub now created ↔ 720 * Hour < now - created := by
  unfold Time.Sub maxDuration minDuration Hour
  split_ifs <;> omega

/-! ## Basic facts about the world operations -/

@[simp] theorem emit_trace (w : World) (e : Event) : (w.emit e).trace = w.trace ++ [e] := rfl
@[simp] theorem emit_step (w : World) (e : Event) : (w.emit e).step = w.step := rfl
@[simp] theorem emit_clock (w : World) (e : Event) : (w.emit e).clock = w.clock := rfl
@[simp] theorem emit_fault (w : World) (e : Event) : (w.emit e).fault = w.fault := rfl
@[simp] theorem emit_fs (w : World) (e : Event) : (w.emit e).fs = w.fs := rfl
@[simp] theorem emit_drive (w : World) (e : Event) : (w.emit e).drive = w.drive := rfl
@[simp] theorem emit_pageSize (w : World) (e : Event) : (w.emit e).pageSize = w.pageSize := rfl
@[simp] theorem emit_parse (w : World) (e : Event) :
    (w.emit e).parseRFC3339 = w.parseRFC3339 := rfl
@[simp] theorem emit_format (w : World) (e : Event) : (w.emit e).format = w.format := rfl

@[simp] theorem record_trace (w : World) (e : Event) : (w.record e).trace = w.trace ++ [e] := rfl
@[simp] theorem record_step (w : World) (e : Event) : (w.record e).step = w.step + 1 := rfl
@[simp] theorem record_clock (w : World) (e : Event) : (w.record e).clock = w.clock := rfl
@[simp] theorem record_fault (w : World) (e : Event) : (w.record e).fault = w.fault := rfl
@[simp] theorem record_fs (w : World) (e : Event) : (w.record e).fs = w.fs := rfl
@[simp] theorem record_drive (w : World) (e : Event) : (w.record e).drive = w.drive := rfl
@[simp] theorem record_pageSize (w : World) (e : Event) :
    (w.record e).pageSize = w.pageSize := rfl
@[simp] theorem record_parse (w : World) (e : Event) :
    (w.record e).parseRFC3339 = w.parseRFC3339 := rfl
@[simp] theorem record_format (w : World) (e : Event) : (w.record e).format = w.format := rfl

theorem untouched_refl (w : World) : w.untouched w := ⟨rfl, rfl, rfl, rfl, rfl, rfl⟩

theorem untouched_trans {u v w : World} (h1 : u.untouched v) (h2 : v.untouched w) :
    u.untouched w := by
  obtain ⟨a1, a2, a3, a4, a5, a6⟩ := h1
  obtain ⟨b1, b2, b3, b4, b5, b6⟩ := h2
  exact ⟨a1.trans b1, a2.trans b2, a3.trans b3, a4.trans b4, a5.trans b5, a6.trans b6⟩

theorem untouched_emit (w : World) (e : Event) : (w.emit e).untouched w :=
  ⟨rfl, rfl, rfl, rfl, rfl, rfl⟩

theorem untouched_record (w : World) (e : Event) : (w.record e).untouched w :=
  ⟨rfl, rfl, rfl, rfl, rfl, rfl⟩

theorem since_append (v w : World) (evs : List Event) (h : v.trace = w.trace ++ evs) :
    v.since w = evs := by
  unfold World.since
  rw [h]
  exact List.drop_left _ _

@[simp] theorem deleteRequests_nil : deleteRequests [] = [] := rfl
@[simp] theorem deletedIds_nil : deletedIds [] = [] := rfl

@[simp] theorem deleteRequests_append (a b : List Event) :
    deleteRequests (a ++ b) = deleteRequests a ++ deleteRequests b := by
  simp [deleteRequests]

@[simp] theorem deletedIds_append (a b : List Event) :
    deletedIds (a ++ b) = deletedIds a ++ deletedIds b := by
  simp [deletedIds]

theorem deletedIds_subset (tr : List Event) : ∀ id ∈ deletedIds tr, id ∈ deleteRequests tr := by
  intro id h
  simp only [deletedIds, deleteRequests, List.mem_filterMap] at h ⊢
  obtain ⟨e, he, h2⟩ := h
  refine ⟨e, he, ?_⟩
  cases e <;> simp_all
  rename_i err
  cases err <;> simp_all

/-- The code's test on a file agrees with the retention rule of the specification. -/
theorem isOld_eq_expired (parse : String → Option ℤ) (now : ℤ) (f : File) (T : ℤ)
    (h : parse f.CreatedTime = some T) : isOld now T = expired parse now f := by
  unfold expired
  rw [h]
  rw [Bool.eq_iff_iff, isOld_iff, sub_gt_iff]
  simp

/-- Outcome of a delete request: the error it returns and the world it leaves. -/
theorem filesDelete_spec (id : String) (w : World) :
    ∃ (err : Option String) (v : World), filesDelete id w = (err, v) ∧
      v.trace = w.trace ++ [.filesDelete id err] ∧ v.step = w.step + 1 ∧
      v.parseRFC3339 = w.parseRFC3339 ∧
      (err = none → v.drive = w.drive.filter (fun g => g.Id ≠ id)) ∧
      (err ≠ none → v.drive = w.drive) ∧ v.untouched w := by
  unfold filesDelete World.call
  split
  · rename_i e _
    exact ⟨some e, _, rfl, by simp [World.untouched]⟩
  · exact ⟨none, _, rfl, by simp [World.untouched, World.record, World.emit]⟩

/-- What the loop of `deleteOldBackups` does, for every list, counter and world:
the entries it adds to the trace, the requests among them, the counter it
returns, and the state it leaves. -/
theorem pruneLoop_spec (now : ℤ) (files : List File) : ∀ (cnt : ℕ) (w : World),
    ∃ evs : List Event,
      (pruneLoop now files cnt w).2.trace = w.trace ++ evs ∧
      deleteRequests evs = (files.filter (expired w.parseRFC3339 now)).map File.Id ∧
      (pruneLoop now files cnt w).1 = cnt + (deletedIds evs).length ∧
      (pruneLoop now files cnt w).2.drive = w.drive.filter (fun g => g.Id ∉ deletedIds evs) ∧
      (pruneLoop now files cnt w).2.step = w.step + (deleteRequests evs).length ∧
      (∀ e ∈ evs, e.isLoopEntry = true) ∧
      (pruneLoop now files cnt w).2.untouched w := by
  induction files with
  | nil =>
    intro cnt w
    exact ⟨[], by simp [pruneLoop, untouched_refl]⟩
  | cons f rest ih =>
    intro cnt w
    cases hp : w.parseRFC3339 f.CreatedTime with
    | none =>
      obtain ⟨evs, h1, h2, h3, h4, h5, h6, h7⟩ := ih cnt
        (w.emit (.logPrintf ("Skipping file " ++ f.Name ++ ": invalid date format\n")))
      refine ⟨.logPrintf ("Skipping file " ++ f.Name ++ ": invalid date format\n") :: evs, ?_⟩
      have hx : expired w.parseRFC3339 now f = false := by simp [expired, hp]
      simp only [pruneLoop, hp]
      refine ⟨by simp [h1], ?_, ?_, ?_, ?_, ?_, untouched_trans h7 (untouched_emit _ _)⟩
      · simpa [deleteRequests, hx] using h2
      · simpa [deletedIds] using h3
      · simpa [deletedIds] using h4
      · simpa [deleteRequests] using h5
      · intro e he
        rcases List.mem_cons.mp he with rfl | he
        · rfl
        · exact h6 e he
    | some T =>
      have hx := isOld_eq_expired w.parseRFC3339 now f T hp
      by_cases hold : isOld now T = true
      · obtain ⟨err, v, hd, hv1, hv2, hv3, hv4, hv5, hv6⟩ := filesDelete_spec f.Id w
        have hx1 : expired w.parseRFC3339 now f = true := by rw [← hx]; exact hold
        cases err with
        | some e =>
          obtain ⟨evs, h1, h2, h3, h4, h5, h6, h7⟩ := ih cnt
            (v.emit (.logPrintf ("Failed to delete " ++ f.Name ++ ": " ++ e ++ "\n")))
          refine ⟨.filesDelete f.Id (some e) ::
            .logPrintf ("Failed to delete " ++ f.Name ++ ": " ++ e ++ "\n") :: evs, ?_⟩
          simp only [pruneLoop, hp, hold, if_true, hd]
          simp only [emit_parse, emit_trace, emit_drive, emit_step, hv1, hv2, hv3,
            hv5 (by simp)] at h1 h2 h4 h5
          refine ⟨by simp [h1], ?_, ?_, ?_, ?_, ?_,
            untouched_trans h7 (untouched_trans (untouched_emit _ _) hv6)⟩
          · simp [deleteRequests, hx1] at h2 ⊢
            exact h2
          · simpa [deletedIds] using h3
          · simpa [deletedIds] using h4
          · simp [deleteRequests] at h5 ⊢
            omega
          · intro ev hev
            rcases List.mem_cons.mp hev with rfl | hev
            · rfl
            rcases List.mem_cons.mp hev with rfl | hev
            · rfl
            · exact h6 ev hev
        | none =>
          obtain ⟨evs, h1, h2, h3, h4, h5, h6, h7⟩ := ih (cnt + 1)
            (v.emit (.stdout ("Deleted old backup: " ++ f.Name ++ "\n")))
          refine ⟨.filesDelete f.Id none ::
            .stdout ("Deleted old backup: " ++ f.Name ++ "\n") :: evs, ?_⟩
          simp only [pruneLoop, hp, hold, if_true, hd]
          simp only [emit_parse, emit_trace, emit_drive, emit_step, hv1, hv2, hv3,
            hv4 rfl] at h1 h2 h4 h5
          refine ⟨by simp [h1], ?_, ?_, ?_, ?_, ?_,
            untouched_trans h7 (untouched_trans (untouched_emit _ _) hv6)⟩
          · simp [deleteRequests, hx1] at h2 ⊢
            exact h2
          · simp [deletedIds] at h3 ⊢
            omega
          · rw [h4, List.filter_filter]
            congr 1
            funext g
            have hc : deletedIds (.filesDelete f.Id none ::
                .stdout ("Deleted old backup: " ++ f.Name ++ "\n") :: evs)
                = f.Id :: deletedIds evs := rfl
            rw [hc]
            simp [Bool.and_comm]
          · simp [deleteRequests] at h5 ⊢
            omega
          · intro ev hev
            rcases List.mem_cons.mp hev with rfl | hev
            · rfl
            rcases List.mem_cons.mp hev with rfl | hev
            · rfl
            · exact h6 ev hev
      · obtain ⟨evs, h1, h2, h3, h4, h5, h6, h7⟩ := ih cnt w
        refine ⟨evs, ?_⟩
        have hx2 : expired w.parseRFC3339 now f = false := by
          rw [← hx]
          simpa using hold
        simp only [pruneLoop, hp, hold]
        refine ⟨h1, ?_, h3, h4, h5, h6, h7⟩
        simpa [hx2] using h2

/-! ## `deleteOldBackups` as a whole -/

theorem deleteOldBackups_listed (w : World) (h : listingSucceeds w) :
    ∃ evs : List Event,
      (deleteOldBackups w).1 = none ∧
      (deleteOldBackups w).2.trace = w.trace ++ listingEntries w ++ evs ++
        [.stdout ("Cleanup complete. Deleted " ++ toString (deletedIds evs).length
          ++ " old backups.\n")] ∧
      deleteRequests evs = ((w.drive.take w.pageSize).filter
        (expired w.parseRFC3339 (w.clock (w.step + 4)))).map File.Id ∧
      (deleteOldBackups w).2.drive = w.drive.filter (fun g => g.Id ∉ deletedIds evs) ∧
      (∀ e ∈ evs, e.isLoopEntry = true) ∧
      (deleteOldBackups w).2.untouched w ∧
      (deleteOldBackups w).2.step = w.step + 5 + (deleteRequests evs).length := by
  obtain ⟨hc, h0, h1, h2, h3⟩ := h
  obtain ⟨evs, e1, e2, e3, e4, e5, e6, e7⟩ := pruneLoop_spec (w.clock (w.step + 4))
    (w.drive.take w.pageSize) 0
    (((((w.record (.osReadFile serviceAccountFile none)).record
      (.credentialsFromJSON none)).record (.newService none)).record
      (.filesList ("'" ++ backupFolderID ++ "' in parents") "files(id, name, createdTime)"
        none)).record (.timeNow (w.clock (w.step + 4))))
  refine ⟨evs, ?_⟩
  simp only [deleteOldBackups, osReadFile, credentialsFromJSON, newService, filesList, timeNow,
    World.call, hc, h0, h1, h2, h3, if_true, Option.orElse, record_step, record_fault,
    record_clock, record_drive, record_pageSize, id]
  simp only [record_trace, record_drive, record_parse, record_step, Nat.zero_add] at e1 e2 e3 e4 e5
  refine ⟨trivial, ?_, e2, ?_, e6, ?_, ?_⟩
  · simp [e1, e3, listingEntries]
  · simp [e4]
  · exact untouched_trans (untouched_emit _ _) e7
  · simp [e5]

theorem deleteOldBackups_not_listed (w : World) (h : ¬ listingSucceeds w) :
    ∃ (e : String) (evs : List Event),
      (deleteOldBackups w).1 = some e ∧
      (deleteOldBackups w).2.trace = w.trace ++ evs ∧
      deleteRequests evs = [] ∧
      (∀ q f, Event.filesList q f none ∉ evs) ∧
      (deleteOldBackups w).2.drive = w.drive ∧
      (∀ e ∈ evs, e.isSetupEntry = true) ∧
      (deleteOldBackups w).2.untouched w := by
  unfold listingSucceeds at h
  cases h0 : w.fault w.step with
  | some e0 =>
    exact ⟨"failed to read service account file: " ++ e0,
      [.osReadFile serviceAccountFile (some e0)], by
      simp [deleteOldBackups, osReadFile, World.call, h0, Option.orElse, deleteRequests, Event.isSetupEntry, World.untouched]⟩
  | none =>
    by_cases hc : serviceAccountFile ∈ w.fs
    · cases h1 : w.fault (w.step + 1) with
      | some e1 =>
        exact ⟨"failed to create credentials from JSON: " ++ e1,
          [.osReadFile serviceAccountFile none, .credentialsFromJSON (some e1)], by
          simp [deleteOldBackups, osReadFile, credentialsFromJSON, World.call, h0, hc, h1,
            Option.orElse, deleteRequests, Event.isSetupEntry, World.untouched]⟩
      | none =>
        cases h2 : w.fault (w.step + 2) with
        | some e2 =>
          exact ⟨"failed to create Drive client: " ++ e2,
            [.osReadFile serviceAccountFile none, .credentialsFromJSON none,
              .newService (some e2)], by
            simp [deleteOldBackups, osReadFile, credentialsFromJSON, newService, World.call,
              h0, hc, h1, h2, Option.orElse, deleteRequests, Event.isSetupEntry, World.untouched]⟩
        | none =>
          cases h3 : w.fault (w.step + 3) with
          | some e3 =>
            exact ⟨"failed to list files: " ++ e3,
              [.osReadFile serviceAccountFile none, .credentialsFromJSON none,
                .newService none,
                .filesList ("'" ++ backupFolderID ++ "' in parents")
                  "files(id, name, createdTime)" (some e3)], by
              simp [deleteOldBackups, osReadFile, credentialsFromJSON, newService, filesList,
                World.call, h0, hc, h1, h2, h3, Option.orElse, deleteRequests, Event.isSetupEntry, World.untouched]⟩
          | none => exact absurd ⟨hc, h0, h1, h2, h3⟩ h
    · exact ⟨"failed to read service account file: " ++
          ("open " ++ serviceAccountFile ++ ": no such file or directory"),
        [.osReadFile serviceAccountFile
          (some ("open " ++ serviceAccountFile ++ ": no such file or directory"))], by
        simp [deleteOldBackups, osReadFile, World.call, h0, hc, Option.orElse, deleteRequests, Event.isSetupEntry, World.untouched]⟩

/-- The list request of `deleteOldBackups` is made and succeeds exactly when the
four calls before the loop succeed. -/
theorem listed_iff (w : World) :
    (∃ q f, Event.filesList q f none ∈ (deleteOldBackups w).2.since w) ↔ listingSucceeds w := by
  constructor
  · rintro ⟨q, f, hm⟩
    by_contra hn
    obtain ⟨e, evs, _, ht, _, hl, _, _, _⟩ := deleteOldBackups_not_listed w hn
    rw [since_append _ _ _ ht] at hm
    exact hl q f hm
  · intro h
    obtain ⟨evs, _, ht, _⟩ := deleteOldBackups_listed w h
    refine ⟨"'" ++ backupFolderID ++ "' in parents", "files(id, name, createdTime)", ?_⟩
    rw [since_append _ _ _ (by rw [ht, List.append_assoc, List.append_assoc])]
    simp [listingEntries]

theorem clockReadings_loop (evs : List Event) (h : ∀ e ∈ evs, e.isLoopEntry = true) :
    clockReadings evs = [] := by
  unfold clockReadings
  rw [List.filterMap_eq_nil_iff]
  intro e he
  have := h e he
  cases e <;> simp_all [Event.isLoopEntry]

theorem mem_requests_iff (parse : String → Option ℤ) (now : ℤ) (files : List File)
    (hnd : (files.map File.Id).Nodup) (f : File) (hf : f ∈ files) :
    f.Id ∈ (files.filter (expired parse now)).map File.Id ↔ expired parse now f = true := by
  constructor
  · intro h
    obtain ⟨g, hg, hid⟩ := List.mem_map.mp h
    obtain ⟨hg1, hg2⟩ := List.mem_filter.mp hg
    have : g = f := List.inj_on_of_nodup_map hnd hg1 hf hid
    rw [← this]
    exact hg2
  · intro h
    exact List.mem_map_of_mem _ (List.mem_filter.mpr ⟨hf, h⟩)

/-- With a successful listing, `deleteOldBackups` is its loop run on the first
page with the clock reading of the fifth call, followed by the report. -/
theorem deleteOldBackups_eq (w : World) (h : listingSucceeds w) :
    deleteOldBackups w = (none,
      (pruneLoop (w.clock (w.step + 4)) (w.drive.take w.pageSize) 0 (afterSetup w)).2.emit
        (.stdout ("Cleanup complete. Deleted " ++
          toString (pruneLoop (w.clock (w.step + 4)) (w.drive.take w.pageSize) 0
            (afterSetup w)).1 ++ " old backups.\n"))) := by
  obtain ⟨hc, h0, h1, h2, h3⟩ := h
  simp only [deleteOldBackups, osReadFile, credentialsFromJSON, newService, filesList, timeNow,
    World.call, hc, h0, h1, h2, h3, if_true, Option.orElse, record_step, record_fault,
    record_clock, record_drive, record_pageSize, id, afterSetup]

theorem pruneLoop_append (now : ℤ) (a b : List File) : ∀ (cnt : ℕ) (w : World),
    pruneLoop now (a ++ b) cnt w =
      pruneLoop now b (pruneLoop now a cnt w).1 (pruneLoop now a cnt w).2 := by
  induction a with
  | nil => intro cnt w; rfl
  | cons f rest ih =>
    intro cnt w
    simp only [List.cons_append, pruneLoop]
    split
    · exact ih _ _
    · split
      · split
        · exact ih _ _
        · exact ih _ _
      · exact ih _ _

/-- The trace and the state `deleteOldBackups` leaves after a successful listing. -/
theorem deleteOldBackups_observed (w : World) (hl : listingSucceeds w) :
    deleteRequests ((deleteOldBackups w).2.since w) =
      ((w.drive.take w.pageSize).filter
        (expired w.parseRFC3339 (w.clock (w.step + 4)))).map File.Id ∧
    (deleteOldBackups w).2.trace.getLast? = some (.stdout ("Cleanup complete. Deleted " ++
      toString (deletedIds ((deleteOldBackups w).2.since w)).length ++ " old backups.\n")) ∧
    (deleteOldBackups w).2.drive =
      w.drive.filter (fun g => g.Id ∉ deletedIds ((deleteOldBackups w).2.since w)) := by
  obtain ⟨evs, _, ht, hreq, hdrive, hloop, _, _⟩ := deleteOldBackups_listed w hl
  have hs : (deleteOldBackups w).2.since w = listingEntries w ++ (evs ++
      [.stdout ("Cleanup complete. Deleted " ++ toString (deletedIds evs).length
        ++ " old backups.\n")]) :=
    since_append _ _ _ (by rw [ht, List.append_assoc, List.append_assoc])
  have hr : deleteRequests ((deleteOldBackups w).2.since w) = deleteRequests evs := by
    rw [hs]
    simp [deleteRequests, listingEntries]
  have hd : deletedIds ((deleteOldBackups w).2.since w) = deletedIds evs := by
    rw [hs]
    simp [deletedIds, listingEntries]
  refine ⟨by rw [hr, hreq], ?_, by rw [hd, hdrive]⟩
  rw [hd, ht]
  simp

/-- C1: once the list request of `deleteOldBackups` has succeeded, the delete
requests issued are, in order, those for the listed objects whose creation
timestamp parses to an instant `T` with `now - T` strictly above 720 hours, `now`
being the one clock reading of the run (taken at the fifth external call, before
the loop). For listed objects with distinct identifiers this says: a request is
issued for a parseable object's identifier if and only if `now - T > 720 h`, and
an object aged 720 hours or less is still in the folder afterwards. -/
theorem C1_delete_iff_older_than_720h (w : World)
    (h : ∃ q f, Event.filesList q f none ∈ (deleteOldBackups w).2.since w) :
    deleteRequests ((deleteOldBackups w).2.since w) =
      ((w.drive.take w.pageSize).filter
        (expired w.parseRFC3339 (w.clock (w.step + 4)))).map File.Id ∧
    clockReadings ((deleteOldBackups w).2.since w) = [w.clock (w.step + 4)] ∧
    (((w.drive.take w.pageSize).map File.Id).Nodup →
      ∀ f ∈ w.drive.take w.pageSize, ∀ T : ℤ, w.parseRFC3339 f.CreatedTime = some T →
        (f.Id ∈ deleteRequests ((deleteOldBackups w).2.since w) ↔
          720 * Hour < w.clock (w.step + 4) - T) ∧
        (w.clock (w.step + 4) - T ≤ 720 * Hour → f ∈ (deleteOldBackups w).2.drive)) := by
  have hl := (listed_iff w).mp h
  obtain ⟨evs, _, ht, hreq, hdrive, hloop, _, _⟩ := deleteOldBackups_listed w hl
  have hs : (deleteOldBackups w).2.since w = listingEntries w ++ (evs ++
      [.stdout ("Cleanup complete. Deleted " ++ toString (deletedIds evs).length
        ++ " old backups.\n")]) :=
    since_append _ _ _ (by rw [ht, List.append_assoc, List.append_assoc])
  have hr : deleteRequests ((deleteOldBackups w).2.since w) = deleteRequests evs := by
    rw [hs]
    simp [deleteRequests, listingEntries]
  refine ⟨by rw [hr, hreq], ?_, ?_⟩
  · rw [hs]
    have h1 := clockReadings_loop evs hloop
    simp only [clockReadings, listingEntries, List.filterMap_append] at h1 ⊢
    rw [h1]
    simp
  · intro hnd f hf T hT
    have hiff := mem_requests_iff w.parseRFC3339 (w.clock (w.step + 4)) _ hnd f hf
    have hexp : expired w.parseRFC3339 (w.clock (w.step + 4)) f = true ↔
        720 * Hour < w.clock (w.step + 4) - T := by
      simp [expired, hT]
    refine ⟨by rw [hr, hreq, hiff, hexp], ?_⟩
    intro hle
    rw [hdrive]
    refine List.mem_filter.mpr ⟨List.mem_of_mem_take hf, ?_⟩
    have hnot : f.Id ∉ deleteRequests evs := by
      rw [hreq, hiff, hexp]
      exact not_lt.mpr hle
    have : f.Id ∉ deletedIds evs := fun hm => hnot (deletedIds_subset evs _ hm)
    simpa using this

/-- C2: once the list request of `deleteOldBackups` has succeeded, a listed
object whose creation timestamp does not parse gets no delete request, leaves
the deleted count as it was, does not stop the objects after it from being
processed, and the function returns no error: the loop over `pre ++ f :: post`
is the loop over `pre`, one log line for `f` (counter and state untouched), then
the loop over `post`. -/
theorem C2_unparseable_object_skipped (w : World)
    (h : ∃ q f, Event.filesList q f none ∈ (deleteOldBackups w).2.since w)
    (pre post : List File) (f : File)
    (hfiles : w.drive.take w.pageSize = pre ++ f :: post)
    (hparse : w.parseRFC3339 f.CreatedTime = none) :
    (deleteOldBackups w).1 = none ∧
    deleteRequests ((deleteOldBackups w).2.since w) =
      (pre.filter (expired w.parseRFC3339 (w.clock (w.step + 4)))).map File.Id ++
      (post.filter (expired w.parseRFC3339 (w.clock (w.step + 4)))).map File.Id ∧
    Event.logPrintf ("Skipping file " ++ f.Name ++ ": invalid date format\n") ∈
      (deleteOldBackups w).2.since w ∧
    (∀ (now : ℤ) (cnt : ℕ) (v : World), v.parseRFC3339 = w.parseRFC3339 →
      pruneLoop now (pre ++ f :: post) cnt v =
        pruneLoop now post (pruneLoop now pre cnt v).1
          ((pruneLoop now pre cnt v).2.emit
            (.logPrintf ("Skipping file " ++ f.Name ++ ": invalid date format\n")))) := by
  have hl := (listed_iff w).mp h
  have hloop : ∀ (now : ℤ) (cnt : ℕ) (v : World), v.parseRFC3339 = w.parseRFC3339 →
      pruneLoop now (pre ++ f :: post) cnt v =
        pruneLoop now post (pruneLoop now pre cnt v).1
          ((pruneLoop now pre cnt v).2.emit
            (.logPrintf ("Skipping file " ++ f.Name ++ ": invalid date format\n"))) := by
    intro now cnt v hv
    obtain ⟨_, _, _, _, _, _, _, hu⟩ := pruneLoop_spec now pre cnt v
    have hp : (pruneLoop now pre cnt v).2.parseRFC3339 f.CreatedTime = none := by
      rw [hu.2.2.2.2.1, hv]
      exact hparse
    rw [pruneLoop_append]
    simp only [pruneLoop, hp]
  have hexp : expired w.parseRFC3339 (w.clock (w.step + 4)) f = false := by
    simp [expired, hparse]
  have heq := deleteOldBackups_eq w hl
  refine ⟨by rw [heq], ?_, ?_, hloop⟩
  · rw [(deleteOldBackups_observed w hl).1, hfiles]
    simp [List.filter_cons, hexp]
  · rw [hfiles, hloop (w.clock (w.step + 4)) 0 (afterSetup w) rfl] at heq
    obtain ⟨evs1, t1, _⟩ := pruneLoop_spec (w.clock (w.step + 4)) pre 0 (afterSetup w)
    obtain ⟨evs2, t2, _⟩ := pruneLoop_spec (w.clock (w.step + 4)) post
      (pruneLoop (w.clock (w.step + 4)) pre 0 (afterSetup w)).1
      ((pruneLoop (w.clock (w.step + 4)) pre 0 (afterSetup w)).2.emit
        (.logPrintf ("Skipping file " ++ f.Name ++ ": invalid date format\n")))
    have ht : (deleteOldBackups w).2.trace = w.trace ++ (listingEntries w ++ evs1 ++
        [.logPrintf ("Skipping file " ++ f.Name ++ ": invalid date format\n")] ++ evs2 ++
        [.stdout ("Cleanup complete. Deleted " ++
          toString (pruneLoop (w.clock (w.step + 4)) post
            (pruneLoop (w.clock (w.step + 4)) pre 0 (afterSetup w)).1
            ((pruneLoop (w.clock (w.step + 4)) pre 0 (afterSetup w)).2.emit
              (.logPrintf ("Skipping file " ++ f.Name ++ ": invalid date format\n")))).1
          ++ " old backups.\n")]) := by
      rw [heq]
      simp only [emit_trace, t2, t1]
      simp [afterSetup, listingEntries]
    rw [since_append _ _ _ ht]
    simp

theorem deletedIds_sublist (tr : List Event) : (deletedIds tr).Sublist (deleteRequests tr) := by
  induction tr with
  | nil => exact List.Sublist.slnil
  | cons e rest ih =>
    cases e with
    | filesDelete id err =>
      cases err with
      | none => exact List.Sublist.cons₂ _ ih
      | some e => exact List.Sublist.cons _ ih
    | _ => exact ih

theorem threeBackups_listed :
    ∃ q f, Event.filesList q f none ∈ (deleteOldBackups threeBackups).2.since threeBackups :=
  (listed_iff _).mpr ⟨by decide, rfl, rfl, rfl, rfl⟩

theorem mixedBackups_listed :
    ∃ q f, Event.filesList q f none ∈ (deleteOldBackups mixedBackups).2.since mixedBackups :=
  (listed_iff _).mpr ⟨by decide, rfl, rfl, rfl, rfl⟩

/-- C1 at `mixedBackups`: requests go to the objects aged 31 and 40 days only, not
to the one aged exactly 720 hours. -/
theorem C1_witness :
    deleteRequests ((deleteOldBackups mixedBackups).2.since mixedBackups) = ["id31", "id40"] :=
  (C1_delete_iff_older_than_720h mixedBackups mixedBackups_listed).1.trans (by decide)

/-- C3: once the list request of `deleteOldBackups` has succeeded, whatever the
list and whatever the outcomes of the delete requests, the last line written is
the report `Cleanup complete. Deleted n old backups.` with `n` the number of
delete requests that succeeded, each of them a request issued for a listed
object past the retention age. -/
theorem C3_reported_count_is_successful_deletes (w : World)
    (h : ∃ q f, Event.filesList q f none ∈ (deleteOldBackups w).2.since w) :
    (deleteOldBackups w).2.trace.getLast? = some (.stdout ("Cleanup complete. Deleted " ++
      toString (deletedIds ((deleteOldBackups w).2.since w)).length ++ " old backups.\n")) ∧
    (deletedIds ((deleteOldBackups w).2.since w)).Sublist
      (((w.drive.take w.pageSize).filter
        (expired w.parseRFC3339 (w.clock (w.step + 4)))).map File.Id) := by
  have hl := (listed_iff w).mp h
  obtain ⟨h1, h2, _⟩ := deleteOldBackups_observed w hl
  refine ⟨h2, ?_⟩
  rw [← h1]
  exact deletedIds_sublist _

/-- C4: once the list request of `deleteOldBackups` has succeeded, a failed
delete request does not halt the loop. Whatever delete requests fail, a request
is issued for every listed object past the retention age, in list order, and for
no other; so under any other fault pattern `fault'` that also lets the listing
succeed the same requests are issued, and in both runs the function returns no
error. In the loop itself, when the delete request for `f` fails with `e`, the
loop over `pre ++ f :: post` is the loop over `pre`, the failed request and its
log line (counter unchanged), then the loop over `post`. -/
theorem C4_failed_delete_does_not_halt (w : World) (fault' : ℕ → Option String)
    (h : ∃ q f, Event.filesList q f none ∈ (deleteOldBackups w).2.since w)
    (h' : ∃ q f, Event.filesList q f none ∈
      (deleteOldBackups { w with fault := fault' }).2.since { w with fault := fault' }) :
    deleteRequests ((deleteOldBackups w).2.since w) =
      ((w.drive.take w.pageSize).filter
        (expired w.parseRFC3339 (w.clock (w.step + 4)))).map File.Id ∧
    deleteRequests ((deleteOldBackups w).2.since w) =
      deleteRequests
        ((deleteOldBackups { w with fault := fault' }).2.since { w with fault := fault' }) ∧
    (deleteOldBackups w).1 = none ∧
    (deleteOldBackups { w with fault := fault' }).1 = none ∧
    (∀ (now : ℤ) (cnt : ℕ) (v : World) (pre post : List File) (f : File) (T : ℤ) (e : String),
      v.parseRFC3339 f.CreatedTime = some T → isOld now T = true →
      (filesDelete f.Id (pruneLoop now pre cnt v).2).1 = some e →
      pruneLoop now (pre ++ f :: post) cnt v =
        pruneLoop now post (pruneLoop now pre cnt v).1
          ((filesDelete f.Id (pruneLoop now pre cnt v).2).2.emit
            (.logPrintf ("Failed to delete " ++ f.Name ++ ": " ++ e ++ "\n")))) := by
  have hl := (listed_iff w).mp h
  have hl' := (listed_iff _).mp h'
  refine ⟨(deleteOldBackups_observed w hl).1, ?_, by rw [deleteOldBackups_eq w hl],
    by rw [deleteOldBackups_eq _ hl'], ?_⟩
  · rw [(deleteOldBackups_observed w hl).1, (deleteOldBackups_observed _ hl').1]
  · intro now cnt v pre post f T e hT hold hfail
    obtain ⟨_, _, _, _, _, _, _, hu⟩ := pruneLoop_spec now pre cnt v
    have hp : (pruneLoop now pre cnt v).2.parseRFC3339 f.CreatedTime = some T := by
      rw [hu.2.2.2.2.1]
      exact hT
    have hd : filesDelete f.Id (pruneLoop now pre cnt v).2 =
        (some e, (filesDelete f.Id (pruneLoop now pre cnt v).2).2) := Prod.ext hfail rfl
    rw [pruneLoop_append]
    simp only [pruneLoop, hp, hold, if_true]
    rw [hd]

/-- The test of the loop as an exact integer comparison. -/
theorem isOld_decide (now T : ℤ) : isOld now T = decide (720 * Hour < now - T) := by
  rw [Bool.eq_iff_iff, isOld_iff, sub_gt_iff]
  simp

/-- The run of the prune step on `threeBackups`, entry by entry. -/
theorem threeBackups_run :
    (deleteOldBackups threeBackups).2.since threeBackups =
      [.osReadFile "service_account.json" none, .credentialsFromJSON none, .newService none,
       .filesList "'' in parents" "files(id, name, createdTime)" none,
       .timeNow 1706745600000000000,
       .filesDelete "id31" none,
       .stdout "Deleted old backup: thirtyone.sql\n",
       .stdout "Cleanup complete. Deleted 1 old backups.\n"] := by
  apply since_append
  rw [deleteOldBackups_eq _ ((listed_iff _).mp threeBackups_listed)]
  simp [threeBackups, afterSetup, pruneLoop, exampleParse, isOld_decide, Hour, filesDelete,
    World.call, World.record, World.emit, Option.orElse, serviceAccountFile, backupFolderID]
  decide

/-- C2 at `mixedBackups`: the object `bad.sql` is logged as skipped, the objects
around it are processed (requests for `id31` before it and `id40` after it), and
no error is returned. -/
theorem C2_witness :
    (deleteOldBackups mixedBackups).1 = none ∧
    deleteRequests ((deleteOldBackups mixedBackups).2.since mixedBackups) = ["id31", "id40"] ∧
    Event.logPrintf "Skipping file bad.sql: invalid date format\n" ∈
      (deleteOldBackups mixedBackups).2.since mixedBackups :=
  have hc := C2_unparseable_object_skipped mixedBackups mixedBackups_listed
    [⟨"id31", "thirtyone.sql", "2024-01-01T00:00:00Z"⟩] [⟨"id30", "thirty.sql",
      "2024-01-02T00:00:00Z"⟩, ⟨"id40", "forty.sql", "2023-12-23T00:00:00Z"⟩]
    ⟨"idbad", "bad.sql", "yesterday"⟩ (by decide) (by decide)
  ⟨hc.1, hc.2.1.trans (by decide), hc.2.2.1⟩

/-- C3 at `threeBackups`, the scenario of the specification: of the objects aged
10, 29 and 31 days exactly the last is deleted and the report says 1. -/
theorem C3_witness :
    (deleteOldBackups threeBackups).2.trace.getLast? =
      some (.stdout "Cleanup complete. Deleted 1 old backups.\n") ∧
    deleteRequests ((deleteOldBackups threeBackups).2.since threeBackups) = ["id31"] ∧
    deletedIds ((deleteOldBackups threeBackups).2.since threeBackups) = ["id31"] :=
  ⟨(C3_reported_count_is_successful_deletes threeBackups threeBackups_listed).1.trans
      (by rw [threeBackups_run]; decide),
    by rw [threeBackups_run]; decide, by rw [threeBackups_run]; decide⟩

/-- The run of the prune step on `mixedBackups`, entry by entry. -/
theorem mixedBackups_run :
    (deleteOldBackups mixedBackups).2.since mixedBackups =
      [.osReadFile "service_account.json" none, .credentialsFromJSON none, .newService none,
       .filesList "'' in parents" "files(id, name, createdTime)" none,
       .timeNow 1706745600000000000,
       .filesDelete "id31" (some "googleapi: Error 500"),
       .logPrintf "Failed to delete thirtyone.sql: googleapi: Error 500\n",
       .logPrintf "Skipping file bad.sql: invalid date format\n",
       .filesDelete "id40" none,
       .stdout "Deleted old backup: forty.sql\n",
       .stdout "Cleanup complete. Deleted 1 old backups.\n"] := by
  apply since_append
  rw [deleteOldBackups_eq _ ((listed_iff _).mp mixedBackups_listed)]
  simp [mixedBackups, afterSetup, pruneLoop, exampleParse, isOld_decide, Hour, filesDelete,
    World.call, World.record, World.emit, Option.orElse, serviceAccountFile, backupFolderID]
  decide

/-- C4 at `mixedBackups`, whose first delete request fails, against the same world
with nothing failing: the request for `id31` fails, the request for the later
object `id40` is still issued, the same two requests are issued when nothing
fails, and no error is returned. -/
theorem C4_witness :
    Event.filesDelete "id31" (some "googleapi: Error 500") ∈
      (deleteOldBackups mixedBackups).2.since mixedBackups ∧
    deleteRequests ((deleteOldBackups mixedBackups).2.since mixedBackups) = ["id31", "id40"] ∧
    deleteRequests ((deleteOldBackups mixedBackups).2.since mixedBackups) =
      deleteRequests
        ((deleteOldBackups { mixedBackups with fault := fun _ => none }).2.since
          { mixedBackups with fault := fun _ => none }) ∧
    (deleteOldBackups mixedBackups).1 = none ∧
    (deleteOldBackups { mixedBackups with fault := fun _ => none }).1 = none :=
  have hc := C4_failed_delete_does_not_halt mixedBackups (fun _ => none) mixedBackups_listed
    ((listed_iff _).mpr ⟨by decide, rfl, rfl, rfl, rfl⟩)
  ⟨by rw [mixedBackups_run]; decide, hc.1.trans (by decide), hc.2.1, hc.2.2.1, hc.2.2.2.1⟩

/-! ## The dump and upload steps -/

theorem backupPostgreSQL_spec (name : String) (w : World) :
    ∃ evs : List Event,
      (backupPostgreSQL name w).2.trace = w.trace ++ evs ∧
      (∀ ev ∈ evs, ev.isDumpEntry = true) ∧
      (backupPostgreSQL name w).2.drive = w.drive ∧
      ((backupPostgreSQL name w).1 = none →
        evs = [.osCreate name none, .cmdRun dumpArgs none, .fileClose name] ∧
        name ∈ (backupPostgreSQL name w).2.fs ∧
        (∀ n ∈ w.fs, n ∈ (backupPostgreSQL name w).2.fs) ∧
        (backupPostgreSQL name w).2.step = w.step + 2 ∧
        (backupPostgreSQL name w).2.fault = w.fault ∧
        (backupPostgreSQL name w).2.clock = w.clock) ∧
      (∀ msg, w.fault w.step = some msg → (backupPostgreSQL name w).1 = some msg) ∧
      (∀ msg, w.fault w.step = none → w.fault (w.step + 1) = some msg →
        (backupPostgreSQL name w).1 = some msg) := by
  cases h0 : w.fault w.step with
  | some e0 =>
    exact ⟨[.osCreate name (some e0)], by
      simp [backupPostgreSQL, osCreate, World.call, h0, Option.orElse, Event.isDumpEntry]⟩
  | none =>
    cases h1 : w.fault (w.step + 1) with
    | some e1 =>
      exact ⟨[.osCreate name none, .cmdRun dumpArgs (some e1), .fileClose name], by
        simp [backupPostgreSQL, osCreate, cmdRun, World.call, h0, h1, Option.orElse,
          Event.isDumpEntry, dumpArgs, World.record, World.emit]⟩
    | none =>
      refine ⟨[.osCreate name none, .cmdRun dumpArgs none, .fileClose name], ?_⟩
      simp only [backupPostgreSQL, osCreate, cmdRun, World.call, h0, h1, Option.orElse,
        Event.isDumpEntry, dumpArgs, World.record, World.emit]
      simp only [h1, id]
      refine ⟨by simp, by simp [Event.isDumpEntry], trivial, fun _ => ⟨trivial, ?_, ?_, trivial,
        trivial, trivial⟩, by simp, by simp⟩
      · by_cases hm : name ∈ w.fs <;> simp [hm]
      · intro n hn
        by_cases hm : name ∈ w.fs <;> simp [hm, hn]

theorem uploadToDrive_spec (name : String) (w : World) :
    ∃ evs : List Event,
      (uploadToDrive name w).2.trace = w.trace ++ evs ∧
      (∀ ev ∈ evs, ev.isUploadEntry = true) ∧
      (uploadToDrive name w).2.fs = w.fs ∧
      ((uploadToDrive name w).1 = none ↔ uploadSucceeds name w) ∧
      ((uploadToDrive name w).1 = none →
        evs = [.osReadFile serviceAccountFile none, .credentialsFromJSON none,
          .newService none, .osOpen name none, .filesCreate name backupFolderID none,
          .stdout ("File uploaded successfully: " ++ name ++ "\n"), .fileClose name] ∧
        (uploadToDrive name w).2.step = w.step + 5 ∧
        (uploadToDrive name w).2.fault = w.fault ∧
        (uploadToDrive name w).2.clock = w.clock) := by
  unfold uploadSucceeds
  cases h0 : w.fault w.step with
  | some e0 =>
    exact ⟨[.osReadFile serviceAccountFile (some e0)], by
      simp [uploadToDrive, osReadFile, World.call, h0, Option.orElse, Event.isUploadEntry]⟩
  | none =>
    by_cases hc : serviceAccountFile ∈ w.fs
    swap
    · exact ⟨[.osReadFile serviceAccountFile
          (some ("open " ++ serviceAccountFile ++ ": no such file or directory"))], by
        simp [uploadToDrive, osReadFile, World.call, h0, hc, Option.orElse,
          Event.isUploadEntry]⟩
    cases h1 : w.fault (w.step + 1) with
    | some e1 =>
      exact ⟨[.osReadFile serviceAccountFile none, .credentialsFromJSON (some e1)], by
        simp [uploadToDrive, osReadFile, credentialsFromJSON, World.call, h0, hc, h1,
          Option.orElse, Event.isUploadEntry]⟩
    | none =>
      cases h2 : w.fault (w.step + 2) with
      | some e2 =>
        exact ⟨[.osReadFile serviceAccountFile none, .credentialsFromJSON none,
            .newService (some e2)], by
          simp [uploadToDrive, osReadFile, credentialsFromJSON, newService, World.call, h0, hc,
            h1, h2, Option.orElse, Event.isUploadEntry]⟩
      | none =>
        cases h3 : w.fault (w.step + 3) with
        | some e3 =>
          exact ⟨[.osReadFile serviceAccountFile none, .credentialsFromJSON none,
              .newService none, .osOpen name (some e3)], by
            simp [uploadToDrive, osReadFile, credentialsFromJSON, newService, osOpen,
              World.call, h0, hc, h1, h2, h3, Option.orElse, Event.isUploadEntry]⟩
        | none =>
          by_cases hn : name ∈ w.fs
          swap
          · exact ⟨[.osReadFile serviceAccountFile none, .credentialsFromJSON none,
                .newService none,
                .osOpen name (some ("open " ++ name ++ ": no such file or directory"))], by
              simp [uploadToDrive, osReadFile, credentialsFromJSON, newService, osOpen,
                World.call, h0, hc, h1, h2, h3, hn, Option.orElse, Event.isUploadEntry]⟩
          cases h4 : w.fault (w.step + 4) with
          | some e4 =>
            exact ⟨[.osReadFile serviceAccountFile none, .credentialsFromJSON none,
                .newService none, .osOpen name none,
                .filesCreate name backupFolderID (some e4), .fileClose name], by
              simp [uploadToDrive, osReadFile, credentialsFromJSON, newService, osOpen,
                filesCreate, World.call, h0, hc, h1, h2, h3, hn, h4, Option.orElse,
                Event.isUploadEntry]⟩
          | none =>
            exact ⟨[.osReadFile serviceAccountFile none, .credentialsFromJSON none,
                .newService none, .osOpen name none, .filesCreate name backupFolderID none,
                .stdout ("File uploaded successfully: " ++ name ++ "\n"), .fileClose name], by
              simp [uploadToDrive, osReadFile, credentialsFromJSON, newService, osOpen,
                filesCreate, World.call, h0, hc, h1, h2, h3, hn, h4, Option.orElse,
                Event.isUploadEntry, World.record, World.emit]⟩

/-! ## `main` -/

theorem main_dump_failed (w : World) (e : String)
    (h : (backupPostgreSQL (backupName w) (timeNow w).2).1 = some e) :
    main w = (1, (backupPostgreSQL (backupName w) (timeNow w).2).2.emit
      (.logFatalf ("Failed to create backup: " ++ e))) := by
  have hb : backupPostgreSQL (backupName w) (timeNow w).2 =
      (some e, (backupPostgreSQL (backupName w) (timeNow w).2).2) := Prod.ext h rfl
  simp only [backupName, timeNow] at hb
  simp only [main, timeNow, backupName]
  rw [hb]

theorem main_upload_failed (w : World) (e : String)
    (h1 : (backupPostgreSQL (backupName w) (timeNow w).2).1 = none)
    (h2 : (uploadToDrive (backupName w)
      (backupPostgreSQL (backupName w) (timeNow w).2).2).1 = some e) :
    main w = (1, (uploadToDrive (backupName w)
      (backupPostgreSQL (backupName w) (timeNow w).2).2).2.emit
        (.logFatalf ("Failed to upload to Google Drive: " ++ e))) := by
  have hb : backupPostgreSQL (backupName w) (timeNow w).2 =
      (none, (backupPostgreSQL (backupName w) (timeNow w).2).2) := Prod.ext h1 rfl
  have hu : uploadToDrive (backupName w) (backupPostgreSQL (backupName w) (timeNow w).2).2 =
      (some e, (uploadToDrive (backupName w)
        (backupPostgreSQL (backupName w) (timeNow w).2).2).2) := Prod.ext h2 rfl
  simp only [backupName, timeNow] at hb hu
  simp only [main, timeNow, backupName]
  rw [hb]
  simp only []
  rw [hu]

/-- C5: in `main`, if `backupPostgreSQL` returns an error, the run ends in the
fatal log with exit status 1 right after the dump step: the trace of the run
holds only the clock reading, the file creation, the dump command, the close and
the fatal line (no upload, no cleanup, no prune, no success message), and the
remote folder is unchanged. A failing file creation and a failing dump command
both make `backupPostgreSQL` return the error. -/
theorem C5_dump_failure_is_fatal (w : World) (e : String)
    (h : (backupPostgreSQL (backupName w) (timeNow w).2).1 = some e) :
    main w = (1, (backupPostgreSQL (backupName w) (timeNow w).2).2.emit
      (.logFatalf ("Failed to create backup: " ++ e))) ∧
    (∀ ev ∈ (main w).2.since w, ev.isDumpEntry = true) ∧
    (main w).2.drive = w.drive ∧
    (∀ (name : String) (v : World) (msg : String), v.fault v.step = some msg →
      (backupPostgreSQL name v).1 = some msg) ∧
    (∀ (name : String) (v : World) (msg : String), v.fault v.step = none →
      v.fault (v.step + 1) = some msg → (backupPostgreSQL name v).1 = some msg) := by
  have hm := main_dump_failed w e h
  obtain ⟨evs, ht, hev, hdr, _, _, _⟩ := backupPostgreSQL_spec (backupName w) (timeNow w).2
  refine ⟨hm, ?_, ?_, ?_, ?_⟩
  · have hs : (main w).2.since w = .timeNow (w.clock w.step) :: (evs ++
        [.logFatalf ("Failed to create backup: " ++ e)]) := by
      apply since_append
      rw [hm]
      simp only [emit_trace, ht]
      simp [timeNow]
    rw [hs]
    intro ev hmem
    rcases List.mem_cons.mp hmem with rfl | hmem
    · rfl
    rcases List.mem_append.mp hmem with hmem | hmem
    · exact hev ev hmem
    · rw [List.mem_singleton.mp hmem]
      rfl
  · rw [hm]
    simp only [emit_drive, hdr]
    rfl
  · intro name v msg hv
    exact (backupPostgreSQL_spec name v).choose_spec.2.2.2.2.1 msg hv
  · intro name v msg hv hv1
    exact (backupPostgreSQL_spec name v).choose_spec.2.2.2.2.2 msg hv hv1

/-- C5 at `dumpFails`: the dump command exits with a non-zero status and the run
ends fatally after the dump step. -/
theorem C5_witness :
    (main dumpFails).1 = 1 ∧ ∀ ev ∈ (main dumpFails).2.since dumpFails, ev.isDumpEntry = true :=
  have hc := C5_dump_failure_is_fatal dumpFails "exit status 1" rfl
  ⟨congrArg Prod.fst hc.1, hc.2.1⟩

theorem not_cleanup_of_dump (ev : Event) (h : ev.isDumpEntry = true) :
    ev.isCleanupOrPrune = false := by
  cases ev <;> simp_all [Event.isDumpEntry, Event.isCleanupOrPrune]

theorem not_cleanup_of_upload (ev : Event) (h : ev.isUploadEntry = true) :
    ev.isCleanupOrPrune = false := by
  cases ev <;> simp_all [Event.isUploadEntry, Event.isCleanupOrPrune]

theorem osReadFile_snd (n : String) (v : World) :
    (osReadFile n v).2 = v.record (.osReadFile n (osReadFile n v).1) := by
  unfold osReadFile World.call
  split <;> simp_all

/-- C6: in `main`, if the dump succeeded and `uploadToDrive` returns an error, the
run ends in the fatal log with exit status 1, the local artifact is still among
the local files, and the trace of the run holds no removal of a local file and no
list or delete request. `uploadToDrive` returns an error exactly when one of its
five sub-steps fails. -/
theorem C6_upload_failure_keeps_local_file (w : World) (e : String)
    (h1 : (backupPostgreSQL (backupName w) (timeNow w).2).1 = none)
    (h2 : (uploadToDrive (backupName w)
      (backupPostgreSQL (backupName w) (timeNow w).2).2).1 = some e) :
    main w = (1, (uploadToDrive (backupName w)
      (backupPostgreSQL (backupName w) (timeNow w).2).2).2.emit
        (.logFatalf ("Failed to upload to Google Drive: " ++ e))) ∧
    backupName w ∈ (main w).2.fs ∧
    (∀ ev ∈ (main w).2.since w, ev.isCleanupOrPrune = false) ∧
    (∀ (name : String) (v : World),
      (uploadToDrive name v).1 ≠ none ↔ ¬ uploadSucceeds name v) := by
  have hm := main_upload_failed w e h1 h2
  obtain ⟨evs, ht, hev, _, hok, _, _⟩ := backupPostgreSQL_spec (backupName w) (timeNow w).2
  obtain ⟨hevs, hfs, _⟩ := hok h1
  obtain ⟨uevs, hut, huev, hufs, _, _⟩ := uploadToDrive_spec (backupName w)
    (backupPostgreSQL (backupName w) (timeNow w).2).2
  refine ⟨hm, ?_, ?_, ?_⟩
  · rw [hm]
    simp only [emit_fs, hufs]
    exact hfs
  · have hs : (main w).2.since w = .timeNow (w.clock w.step) :: (evs ++ (uevs ++
        [.logFatalf ("Failed to upload to Google Drive: " ++ e)])) := by
      apply since_append
      rw [hm]
      simp only [emit_trace, hut, ht]
      simp [timeNow]
    rw [hs]
    intro ev hmem
    rcases List.mem_cons.mp hmem with rfl | hmem
    · rfl
    rcases List.mem_append.mp hmem with hmem | hmem
    · exact not_cleanup_of_dump ev (hev ev hmem)
    rcases List.mem_append.mp hmem with hmem | hmem
    · exact not_cleanup_of_upload ev (huev ev hmem)
    · rw [List.mem_singleton.mp hmem]
      rfl
  · intro name v
    exact not_congr (uploadToDrive_spec name v).choose_spec.2.2.2.1

/-- C6 at `uploadFails`: the create request is refused, the run ends fatally and
the local artifact is still there. -/
theorem C6_witness :
    (main uploadFails).1 = 1 ∧ backupName uploadFails ∈ (main uploadFails).2.fs :=
  have hc := C6_upload_failure_keeps_local_file uploadFails
    ("failed to upload file to Drive: " ++ "googleapi: Error 403") rfl rfl
  ⟨congrArg Prod.fst hc.1, hc.2.1⟩

/-- C7: if the dump succeeded and reading the credential file then fails with
error `e` (as it does when the file does not exist), `uploadToDrive` returns
`failed to read service account file: e` having made no other call (no open of
the local file, no request), and `main` exits with status 1 after the fatal line:
its trace ends there, with no call of `deleteOldBackups`. -/
theorem C7_missing_credentials (w : World) (e : String)
    (h1 : (backupPostgreSQL (backupName w) (timeNow w).2).1 = none)
    (h2 : (osReadFile serviceAccountFile
      (backupPostgreSQL (backupName w) (timeNow w).2).2).1 = some e) :
    uploadToDrive (backupName w) (backupPostgreSQL (backupName w) (timeNow w).2).2 =
      (some ("failed to read service account file: " ++ e),
        (osReadFile serviceAccountFile (backupPostgreSQL (backupName w) (timeNow w).2).2).2) ∧
    (uploadToDrive (backupName w) (backupPostgreSQL (backupName w) (timeNow w).2).2).2.since
      (backupPostgreSQL (backupName w) (timeNow w).2).2 =
        [.osReadFile serviceAccountFile (some e)] ∧
    (main w).1 = 1 ∧
    (main w).2.since w =
      [.timeNow (w.clock w.step), .osCreate (backupName w) none, .cmdRun dumpArgs none,
       .fileClose (backupName w), .osReadFile serviceAccountFile (some e),
       .logFatalf ("Failed to upload to Google Drive: " ++
         ("failed to read service account file: " ++ e))] ∧
    (∀ v : World, serviceAccountFile ∉ v.fs →
      (osReadFile serviceAccountFile v).1 ≠ none) := by
  have hr : osReadFile serviceAccountFile (backupPostgreSQL (backupName w) (timeNow w).2).2 =
      (some e, (osReadFile serviceAccountFile
        (backupPostgreSQL (backupName w) (timeNow w).2).2).2) := Prod.ext h2 rfl
  have hu : uploadToDrive (backupName w) (backupPostgreSQL (backupName w) (timeNow w).2).2 =
      (some ("failed to read service account file: " ++ e),
        (osReadFile serviceAccountFile
          (backupPostgreSQL (backupName w) (timeNow w).2).2).2) := by
    unfold uploadToDrive
    rw [hr]
  have hm := main_upload_failed w _ h1 (congrArg Prod.fst hu)
  obtain ⟨evs, ht, _, _, hok, _, _⟩ := backupPostgreSQL_spec (backupName w) (timeNow w).2
  obtain ⟨hevs, _⟩ := hok h1
  have hrt : (osReadFile serviceAccountFile
      (backupPostgreSQL (backupName w) (timeNow w).2).2).2.trace =
      (backupPostgreSQL (backupName w) (timeNow w).2).2.trace ++
        [.osReadFile serviceAccountFile (some e)] := by
    rw [osReadFile_snd, h2]
    rfl
  refine ⟨hu, ?_, by rw [hm], ?_, ?_⟩
  · apply since_append
    rw [hu]
    exact hrt
  · apply since_append
    rw [hm, hu]
    simp only [emit_trace, hrt, ht, hevs]
    simp [timeNow]
  · intro v hv
    unfold osReadFile World.call
    cases hf : v.fault v.step <;> simp [Option.orElse, hv]

/-- C7 at `noCredentials`: the credential file does not exist, the upload step
fails naming the service account file, and the run stops at the fatal line. -/
theorem C7_witness :
    (main noCredentials).1 = 1 ∧
    (main noCredentials).2.since noCredentials =
      [.timeNow (noCredentials.clock noCredentials.step),
       .osCreate (backupName noCredentials) none, .cmdRun dumpArgs none,
       .fileClose (backupName noCredentials),
       .osReadFile serviceAccountFile
         (some ("open " ++ serviceAccountFile ++ ": no such file or directory")),
       .logFatalf ("Failed to upload to Google Drive: " ++
         ("failed to read service account file: " ++
           ("open " ++ serviceAccountFile ++ ": no such file or directory")))] :=
  have hc := C7_missing_credentials noCredentials
    ("open " ++ serviceAccountFile ++ ": no such file or directory") rfl (by decide)
  ⟨hc.2.2.1, hc.2.2.2.1⟩

theorem osRemove_spec (n : String) (v : World) :
    (osRemove n v).2.trace = v.trace ++ [.osRemove n (osRemove n v).1] ∧
    ((osRemove n v).1 = none → (osRemove n v).2.fs = v.fs.filter (fun m => m ≠ n)) := by
  unfold osRemove World.call
  split <;> simp_all [World.record, World.emit]

/-- Whatever happens, `deleteOldBackups` starts by reading the credential file,
writes only entries of its own, and leaves the local files alone. -/
theorem deleteOldBackups_entries (v : World) :
    ∃ (r : Option String) (rest : List Event),
      (deleteOldBackups v).2.trace = v.trace ++ .osReadFile serviceAccountFile r :: rest ∧
      (∀ ev ∈ rest, (ev.isSetupEntry || ev.isLoopEntry) = true) ∧
      (deleteOldBackups v).2.fs = v.fs := by
  by_cases hl : listingSucceeds v
  · obtain ⟨evs, _, ht, _, _, hloop, hu, _⟩ := deleteOldBackups_listed v hl
    refine ⟨none, [.credentialsFromJSON none, .newService none,
      .filesList ("'" ++ backupFolderID ++ "' in parents") "files(id, name, createdTime)" none,
      .timeNow (v.clock (v.step + 4))] ++ evs ++
      [.stdout ("Cleanup complete. Deleted " ++ toString (deletedIds evs).length
        ++ " old backups.\n")], ?_, ?_, hu.2.2.1⟩
    · rw [ht]
      simp [listingEntries]
    · intro ev hmem
      simp only [List.mem_append, List.mem_cons, List.mem_singleton, List.not_mem_nil,
        or_false] at hmem
      rcases hmem with ((rfl | rfl | rfl | rfl) | hmem) | rfl
      · rfl
      · rfl
      · rfl
      · rfl
      · rw [hloop ev hmem]
        simp
      · rfl
  · unfold listingSucceeds at hl
    cases h0 : v.fault v.step with
    | some e0 =>
      exact ⟨some e0, [], by
        simp [deleteOldBackups, osReadFile, World.call, h0, Option.orElse]⟩
    | none =>
      by_cases hc : serviceAccountFile ∈ v.fs
      · cases h1 : v.fault (v.step + 1) with
        | some e1 =>
          exact ⟨none, [.credentialsFromJSON (some e1)], by
            simp [deleteOldBackups, osReadFile, credentialsFromJSON, World.call, h0, hc, h1,
              Option.orElse, Event.isSetupEntry]⟩
        | none =>
          cases h2 : v.fault (v.step + 2) with
          | some e2 =>
            exact ⟨none, [.credentialsFromJSON none, .newService (some e2)], by
              simp [deleteOldBackups, osReadFile, credentialsFromJSON, newService, World.call,
                h0, hc, h1, h2, Option.orElse, Event.isSetupEntry]⟩
          | none =>
            cases h3 : v.fault (v.step + 3) with
            | some e3 =>
              exact ⟨none, [.credentialsFromJSON none, .newService none,
                  .filesList ("'" ++ backupFolderID ++ "' in parents")
                    "files(id, name, createdTime)" (some e3)], by
                simp [deleteOldBackups, osReadFile, credentialsFromJSON, newService, filesList,
                  World.call, h0, hc, h1, h2, h3, Option.orElse, Event.isSetupEntry]⟩
            | none => exact absurd ⟨hc, h0, h1, h2, h3⟩ hl
      · exact ⟨some ("open " ++ serviceAccountFile ++ ": no such file or directory"), [], by
          simp [deleteOldBackups, osReadFile, World.call, h0, hc, Option.orElse]⟩

/-- After a successful dump and upload, `main` removes the local file, logs the
outcome, runs `deleteOldBackups` in the resulting world `w4`, logs its error if
any, prints the success line and exits with 0. -/
theorem main_succeeded (w : World)
    (h1 : (backupPostgreSQL (backupName w) (timeNow w).2).1 = none)
    (h2 : (uploadToDrive (backupName w)
      (backupPostgreSQL (backupName w) (timeNow w).2).2).1 = none) :
    ∃ w4 : World,
      w4.trace = (uploadToDrive (backupName w)
          (backupPostgreSQL (backupName w) (timeNow w).2).2).2.trace ++
        [.osRemove (backupName w) (osRemove (backupName w) (uploadToDrive (backupName w)
            (backupPostgreSQL (backupName w) (timeNow w).2).2).2).1,
         .logPrintf (match (osRemove (backupName w) (uploadToDrive (backupName w)
            (backupPostgreSQL (backupName w) (timeNow w).2).2).2).1 with
          | some err => "Warning: Failed to clean up local backup file: " ++ err
          | none => "Successfully cleaned up local backup file: " ++ backupName w)] ∧
      w4.fs = (osRemove (backupName w) (uploadToDrive (backupName w)
          (backupPostgreSQL (backupName w) (timeNow w).2).2).2).2.fs ∧
      main w = (0, (match (deleteOldBackups w4).1 with
        | some err => (deleteOldBackups w4).2.emit
            (.logPrintf ("Warning: Failed to delete old backups: " ++ err))
        | none => (deleteOldBackups w4).2).emit (.stdout "Backup and upload successful!\n")) := by
  have hb : backupPostgreSQL (backupName w) (timeNow w).2 =
      (none, (backupPostgreSQL (backupName w) (timeNow w).2).2) := Prod.ext h1 rfl
  have hu : uploadToDrive (backupName w) (backupPostgreSQL (backupName w) (timeNow w).2).2 =
      (none, (uploadToDrive (backupName w)
        (backupPostgreSQL (backupName w) (timeNow w).2).2).2) := Prod.ext h2 rfl
  have hrt := (osRemove_spec (backupName w) (uploadToDrive (backupName w)
    (backupPostgreSQL (backupName w) (timeNow w).2).2).2).1
  have hmain : main w = (0, (match deleteOldBackups
      (match osRemove (backupName w) (uploadToDrive (backupName w)
          (backupPostgreSQL (backupName w) (timeNow w).2).2).2 with
        | (some err, v) =>
          v.emit (.logPrintf ("Warning: Failed to clean up local backup file: " ++ err))
        | (none, v) =>
          v.emit (.logPrintf ("Successfully cleaned up local backup file: " ++ backupName w)))
      with
      | (some err, v) => v.emit (.logPrintf ("Warning: Failed to delete old backups: " ++ err))
      | (none, v) => v).emit (.stdout "Backup and upload successful!\n")) := by
    simp only [backupName, timeNow] at hb hu ⊢
    simp only [main, timeNow]
    rw [hb]
    simp only []
    rw [hu]
  rcases hrm : osRemove (backupName w) (uploadToDrive (backupName w)
    (backupPostgreSQL (backupName w) (timeNow w).2).2).2 with ⟨r, v⟩
  rw [hrm] at hrt hmain
  simp only at hrt
  cases r with
  | some err =>
    refine ⟨v.emit (.logPrintf ("Warning: Failed to clean up local backup file: " ++ err)),
      by simp [hrt], rfl, ?_⟩
    rw [hmain]
    simp only []
    rcases deleteOldBackups
      (v.emit (.logPrintf ("Warning: Failed to clean up local backup file: " ++ err)))
      with ⟨d, u⟩
    cases d <;> rfl
  | none =>
    refine ⟨v.emit (.logPrintf ("Successfully cleaned up local backup file: " ++ backupName w)),
      by simp [hrt], rfl, ?_⟩
    rw [hmain]
    simp only []
    rcases deleteOldBackups
      (v.emit (.logPrintf ("Successfully cleaned up local backup file: " ++ backupName w)))
      with ⟨d, u⟩
    cases d <;> rfl

/-- C8: in `main`, once the dump and the upload have both succeeded, the exit
status is 0 and the last line written is the success message, whatever the
outcome `r` of removing the local file and whatever `deleteOldBackups` returns:
the removal outcome is only logged, `deleteOldBackups` then runs (in the world
`w4`, starting with its read of the credential file), and its error, if any, is
only logged. -/
theorem C8_success_despite_warnings (w : World)
    (h1 : (backupPostgreSQL (backupName w) (timeNow w).2).1 = none)
    (h2 : (uploadToDrive (backupName w)
      (backupPostgreSQL (backupName w) (timeNow w).2).2).1 = none) :
    (main w).1 = 0 ∧
    (main w).2.trace.getLast? = some (.stdout "Backup and upload successful!\n") ∧
    ∃ w4 : World,
      w4.trace = (uploadToDrive (backupName w)
          (backupPostgreSQL (backupName w) (timeNow w).2).2).2.trace ++
        [.osRemove (backupName w) (osRemove (backupName w) (uploadToDrive (backupName w)
            (backupPostgreSQL (backupName w) (timeNow w).2).2).2).1,
         .logPrintf (match (osRemove (backupName w) (uploadToDrive (backupName w)
            (backupPostgreSQL (backupName w) (timeNow w).2).2).2).1 with
          | some err => "Warning: Failed to clean up local backup file: " ++ err
          | none => "Successfully cleaned up local backup file: " ++ backupName w)] ∧
      (∃ r rest, (deleteOldBackups w4).2.trace =
        w4.trace ++ .osReadFile serviceAccountFile r :: rest) ∧
      (main w).2.trace = (deleteOldBackups w4).2.trace ++
        (match (deleteOldBackups w4).1 with
          | some err => [.logPrintf ("Warning: Failed to delete old backups: " ++ err)]
          | none => []) ++
        [.stdout "Backup and upload successful!\n"] := by
  obtain ⟨w4, ht, _, hm⟩ := main_succeeded w h1 h2
  obtain ⟨r, rest, hd, _, _⟩ := deleteOldBackups_entries w4
  refine ⟨by rw [hm], by rw [hm]; simp, w4, ht, ⟨r, rest, hd⟩, ?_⟩
  rw [hm]
  cases (deleteOldBackups w4).1 <;> simp

/-- C8 at `cleanupFails`: the removal of the local file fails, and the run still
ends with exit status 0 and the success message. -/
theorem C8_witness :
    (main cleanupFails).1 = 0 ∧
    (main cleanupFails).2.trace.getLast? = some (.stdout "Backup and upload successful!\n") :=
  have hc := C8_success_despite_warnings cleanupFails rfl rfl
  ⟨hc.1, hc.2.1⟩

theorem createdFiles_prune (evs : List Event)
    (h : ∀ ev ∈ evs, (ev.isSetupEntry || ev.isLoopEntry) = true) :
    createdFiles evs = [] ∧ uploadedNames evs = [] ∧ ∀ n r, Event.osRemove n r ∉ evs := by
  refine ⟨?_, ?_, ?_⟩
  · unfold createdFiles
    rw [List.filterMap_eq_nil_iff]
    intro e he
    have := h e he
    cases e <;> simp_all [Event.isLoopEntry, Event.isSetupEntry]
  · unfold uploadedNames
    rw [List.filterMap_eq_nil_iff]
    intro e he
    have := h e he
    cases e <;> simp_all [Event.isLoopEntry, Event.isSetupEntry]
  · intro n r hmem
    have := h _ hmem
    simp [Event.isLoopEntry, Event.isSetupEntry] at this

/-- The trace and the local files of a run of `main` whose dump and upload
succeeded. -/
theorem main_since_succeeded (w : World)
    (h1 : (backupPostgreSQL (backupName w) (timeNow w).2).1 = none)
    (h2 : (uploadToDrive (backupName w)
      (backupPostgreSQL (backupName w) (timeNow w).2).2).1 = none) :
    ∃ (r : Option String) (rest tail : List Event),
      (main w).2.since w =
        [.timeNow (w.clock w.step), .osCreate (backupName w) none, .cmdRun dumpArgs none,
         .fileClose (backupName w), .osReadFile serviceAccountFile none,
         .credentialsFromJSON none, .newService none, .osOpen (backupName w) none,
         .filesCreate (backupName w) backupFolderID none,
         .stdout ("File uploaded successfully: " ++ backupName w ++ "\n"),
         .fileClose (backupName w),
         .osRemove (backupName w) (osRemove (backupName w) (uploadToDrive (backupName w)
            (backupPostgreSQL (backupName w) (timeNow w).2).2).2).1] ++
        (.logPrintf (match (osRemove (backupName w) (uploadToDrive (backupName w)
          (backupPostgreSQL (backupName w) (timeNow w).2).2).2).1 with
          | some err => "Warning: Failed to clean up local backup file: " ++ err
          | none => "Successfully cleaned up local backup file: " ++ backupName w) ::
         .osReadFile serviceAccountFile r :: rest) ++ tail ∧
      (∀ ev ∈ rest, (ev.isSetupEntry || ev.isLoopEntry) = true) ∧
      createdFiles tail = [] ∧ uploadedNames tail = [] ∧
      (∀ n r, Event.osRemove n r ∉ tail) ∧
      (main w).2.fs = (osRemove (backupName w) (uploadToDrive (backupName w)
        (backupPostgreSQL (backupName w) (timeNow w).2).2).2).2.fs := by
  obtain ⟨w4, ht4, hfs4, hm⟩ := main_succeeded w h1 h2
  obtain ⟨r, rest, hd, hrest, hdfs⟩ := deleteOldBackups_entries w4
  obtain ⟨evs, ht, _, _, hok, _, _⟩ := backupPostgreSQL_spec (backupName w) (timeNow w).2
  obtain ⟨hevs, _⟩ := hok h1
  obtain ⟨uevs, hut, _, _, _, huok⟩ := uploadToDrive_spec (backupName w)
    (backupPostgreSQL (backupName w) (timeNow w).2).2
  obtain ⟨huevs, _⟩ := huok h2
  have hfs : (main w).2.fs = (osRemove (backupName w) (uploadToDrive (backupName w)
      (backupPostgreSQL (backupName w) (timeNow w).2).2).2).2.fs := by
    rw [hm, ← hfs4, ← hdfs]
    cases (deleteOldBackups w4).1 <;> rfl
  cases hdd : (deleteOldBackups w4).1 with
  | some err =>
    refine ⟨r, rest, [.logPrintf ("Warning: Failed to delete old backups: " ++ err),
      .stdout "Backup and upload successful!\n"], ?_, hrest, rfl, rfl, by simp, hfs⟩
    apply since_append
    rw [hm, hdd]
    simp only [emit_trace, hd, ht4, hut, huevs, ht, hevs]
    simp [timeNow]
  | none =>
    refine ⟨r, rest, [.stdout "Backup and upload successful!\n"], ?_, hrest, rfl, rfl,
      by simp, hfs⟩
    apply since_append
    rw [hm, hdd]
    simp only [emit_trace, hd, ht4, hut, huevs, ht, hevs]
    simp [timeNow]

/-- C10, as the code has it: in every run of `main` that ends successfully (exit
status 0), exactly one local file was created, named `backup_<YYYYMMDD_HHMMSS>.sql`
from the clock reading at the start of the run, exactly one object was uploaded,
under that same name, the removal of that file was attempted, and if the removal
succeeded the file is not among the local files after the run. -/
theorem C10_one_artifact_removed_if_cleanup_succeeds (w : World) (h : (main w).1 = 0) :
    createdFiles ((main w).2.since w) = [backupName w] ∧
    uploadedNames ((main w).2.since w) = [backupName w] ∧
    (∃ r, Event.osRemove (backupName w) r ∈ (main w).2.since w) ∧
    (Event.osRemove (backupName w) none ∈ (main w).2.since w →
      backupName w ∉ (main w).2.fs) := by
  cases h1 : (backupPostgreSQL (backupName w) (timeNow w).2).1 with
  | some e =>
    rw [main_dump_failed w e h1] at h
    exact absurd h (by simp)
  | none =>
    cases h2 : (uploadToDrive (backupName w)
        (backupPostgreSQL (backupName w) (timeNow w).2).2).1 with
    | some e =>
      rw [main_upload_failed w e h1 h2] at h
      exact absurd h (by simp)
    | none =>
      obtain ⟨r, rest, tail, hs, hrest, tcr, tup, trm, hfs⟩ := main_since_succeeded w h1 h2
      obtain ⟨hcr, hup, hrm⟩ := createdFiles_prune rest hrest
      obtain ⟨_, hrfs⟩ := osRemove_spec (backupName w) (uploadToDrive (backupName w)
        (backupPostgreSQL (backupName w) (timeNow w).2).2).2
      refine ⟨?_, ?_, ⟨(osRemove (backupName w) (uploadToDrive (backupName w)
        (backupPostgreSQL (backupName w) (timeNow w).2).2).2).1, by rw [hs]; simp⟩, ?_⟩
      · rw [hs]
        simp only [createdFiles, List.filterMap_append, List.filterMap_cons] at hcr tcr ⊢
        rw [hcr, tcr]
        simp
      · rw [hs]
        simp only [uploadedNames, List.filterMap_append, List.filterMap_cons] at hup tup ⊢
        rw [hup, tup]
        simp
      · intro hmem
        rw [hs] at hmem
        simp only [List.mem_append, List.mem_cons, List.mem_singleton, List.not_mem_nil,
          or_false, reduceCtorEq, false_or, Event.osRemove.injEq, true_and] at hmem
        have hnone : (osRemove (backupName w) (uploadToDrive (backupName w)
            (backupPostgreSQL (backupName w) (timeNow w).2).2).2).1 = none := by
          rcases hmem with (hmem | hmem) | hmem
          · exact hmem.symm
          · exact absurd hmem (hrm _ _)
          · exact absurd hmem (trm _ _)
        rw [hfs, hrfs hnone]
        simp

/-- C10 as stated fails at `cleanupFails`: the run ends successfully (exit status
0, success message last) although the removal of the local file failed, and the
artifact is still among the local files. -/
theorem C10_counterexample :
    (main cleanupFails).1 = 0 ∧
    (main cleanupFails).2.trace.getLast? = some (.stdout "Backup and upload successful!\n") ∧
    backupName cleanupFails ∈ (main cleanupFails).2.fs := by
  obtain ⟨w4, _, _, hm⟩ := main_succeeded cleanupFails rfl rfl
  obtain ⟨_, _, _, _, _, _, _, _, hfs⟩ := main_since_succeeded cleanupFails rfl rfl
  refine ⟨by rw [hm], by rw [hm]; simp, ?_⟩
  rw [hfs]
  decide

/-- C10 at `threeBackups`, where nothing fails: one artifact is created and
uploaded, its removal succeeds, and it is gone after the run. -/
theorem C10_witness :
    (main threeBackups).1 = 0 ∧
    createdFiles ((main threeBackups).2.since threeBackups) = [backupName threeBackups] ∧
    uploadedNames ((main threeBackups).2.since threeBackups) = [backupName threeBackups] ∧
    backupName threeBackups ∉ (main threeBackups).2.fs := by
  have h0 : (main threeBackups).1 = 0 := by
    obtain ⟨w4, _, _, hm⟩ := main_succeeded threeBackups rfl rfl
    rw [hm]
  have hc := C10_one_artifact_removed_if_cleanup_succeeds threeBackups h0
  refine ⟨h0, hc.1, hc.2.1, hc.2.2.2 ?_⟩
  obtain ⟨r, rest, tail, hs, _⟩ := main_since_succeeded threeBackups rfl rfl
  rw [hs]
  have hr : (osRemove (backupName threeBackups) (uploadToDrive (backupName threeBackups)
      (backupPostgreSQL (backupName threeBackups) (timeNow threeBackups).2).2).2).1 = none := by
    decide
  rw [hr]
  simp

/-! ## Two prune passes in a row -/

theorem deletedIds_eq_of_no_failure (tr : List Event)
    (h : ∀ id e, Event.filesDelete id (some e) ∉ tr) : deletedIds tr = deleteRequests tr := by
  induction tr with
  | nil => rfl
  | cons ev rest ih =>
    have hrest : ∀ id e, Event.filesDelete id (some e) ∉ rest :=
      fun id e hm => h id e (List.mem_cons_of_mem _ hm)
    have ih' := ih hrest
    cases ev with
    | filesDelete id err =>
      cases err with
      | none =>
        show id :: deletedIds rest = id :: deleteRequests rest
        rw [ih']
      | some e => exact absurd (List.mem_cons_self _ _) (h id e)
    | _ => exact ih'

/-- The first prune pass on `deleteFailsOnce`: the delete request fails and the
object stays. -/
theorem deleteFailsOnce_first :
    deleteOldBackups deleteFailsOnce = (none, { deleteFailsOnce with
      step := 6
      trace := [.osReadFile "service_account.json" none, .credentialsFromJSON none,
        .newService none, .filesList "'' in parents" "files(id, name, createdTime)" none,
        .timeNow 1706745600000000000,
        .filesDelete "id31" (some "googleapi: Error 500"),
        .logPrintf "Failed to delete thirtyone.sql: googleapi: Error 500\n",
        .stdout "Cleanup complete. Deleted 0 old backups.\n"] }) := by
  rw [deleteOldBackups_eq _ ⟨by decide, rfl, rfl, rfl, rfl⟩]
  simp [deleteFailsOnce, threeBackups, afterSetup, pruneLoop, exampleParse, isOld_decide, Hour,
    filesDelete, World.call, World.record, World.emit, Option.orElse, serviceAccountFile,
    backupFolderID]
  decide

/-- The first prune pass on `agesBetweenRuns`: the object is exactly 720 hours
old and no request is issued. -/
theorem agesBetweenRuns_first :
    deleteOldBackups agesBetweenRuns = (none, { agesBetweenRuns with
      step := 5
      trace := [.osReadFile "service_account.json" none, .credentialsFromJSON none,
        .newService none, .filesList "'' in parents" "files(id, name, createdTime)" none,
        .timeNow 1706745600000000000,
        .stdout "Cleanup complete. Deleted 0 old backups.\n"] }) := by
  rw [deleteOldBackups_eq _ ⟨by decide, rfl, rfl, rfl, rfl⟩]
  simp [agesBetweenRuns, threeBackups, afterSetup, pruneLoop, exampleParse, isOld_decide, Hour,
    World.record, World.emit, serviceAccountFile, backupFolderID]
  decide

/-- C9 as stated fails in two ways. At `deleteFailsOnce` the only delete request
of the first pass fails, and the second pass deletes the object. At
`agesBetweenRuns` the object is exactly 720 hours old at the first pass, hence
kept, and one nanosecond older at the second, hence deleted. -/
theorem C9_counterexample :
    deletedIds ((deleteOldBackups (deleteOldBackups deleteFailsOnce).2).2.since
      (deleteOldBackups deleteFailsOnce).2) = ["id31"] ∧
    deletedIds ((deleteOldBackups (deleteOldBackups agesBetweenRuns).2).2.since
      (deleteOldBackups agesBetweenRuns).2) = ["id30"] := by
  constructor
  · rw [deleteFailsOnce_first]
    simp only []
    rw [deleteOldBackups_eq _ ⟨by decide, rfl, rfl, rfl, rfl⟩]
    simp [World.since, deleteFailsOnce, threeBackups, afterSetup, pruneLoop, exampleParse,
      isOld_decide, Hour, filesDelete, World.call, World.record, World.emit, Option.orElse,
      serviceAccountFile, backupFolderID, deletedIds]
  · rw [agesBetweenRuns_first]
    simp only []
    rw [deleteOldBackups_eq _ ⟨by decide, rfl, rfl, rfl, rfl⟩]
    simp [World.since, agesBetweenRuns, threeBackups, afterSetup, pruneLoop, exampleParse,
      isOld_decide, Hour, filesDelete, World.call, World.record, World.emit, Option.orElse,
      serviceAccountFile, backupFolderID, deletedIds]

/-- C9, as the code has it: run `deleteOldBackups` twice in a row, nothing else
touching the folder in between. If the first pass lists the folder, the folder
fits in one page, every delete request of the first pass succeeds, and no object
of the folder that was within the retention age at the first clock reading is
past it at the second, then the second pass issues no delete request and deletes
nothing; when it gets as far as its report, the report says 0. -/
theorem C9_second_pass_deletes_nothing (w : World)
    (hl : ∃ q f, Event.filesList q f none ∈ (deleteOldBackups w).2.since w)
    (hpage : w.drive.length ≤ w.pageSize)
    (hok : ∀ id e, Event.filesDelete id (some e) ∉ (deleteOldBackups w).2.since w)
    (hclock : ∀ f ∈ w.drive, ∀ T : ℤ, w.parseRFC3339 f.CreatedTime = some T →
      720 * Hour < w.clock ((deleteOldBackups w).2.step + 4) - T →
      720 * Hour < w.clock (w.step + 4) - T) :
    deleteRequests ((deleteOldBackups (deleteOldBackups w).2).2.since
      (deleteOldBackups w).2) = [] ∧
    deletedIds ((deleteOldBackups (deleteOldBackups w).2).2.since
      (deleteOldBackups w).2) = [] ∧
    ((∃ q f, Event.filesList q f none ∈
        (deleteOldBackups (deleteOldBackups w).2).2.since (deleteOldBackups w).2) →
      (deleteOldBackups (deleteOldBackups w).2).2.trace.getLast? =
        some (.stdout ("Cleanup complete. Deleted " ++ toString 0 ++ " old backups.\n"))) := by
  have hl1 := (listed_iff w).mp hl
  obtain ⟨evs, _, ht, hreq, hdrive, _, hu, _⟩ := deleteOldBackups_listed w hl1
  have hs : (deleteOldBackups w).2.since w = listingEntries w ++ (evs ++
      [.stdout ("Cleanup complete. Deleted " ++ toString (deletedIds evs).length
        ++ " old backups.\n")]) :=
    since_append _ _ _ (by rw [ht, List.append_assoc, List.append_assoc])
  have hok' : ∀ id e, Event.filesDelete id (some e) ∉ evs := by
    intro id e hm
    apply hok id e
    rw [hs]
    exact List.mem_append_right _ (List.mem_append_left _ hm)
  have hdel : deletedIds evs = deleteRequests evs := deletedIds_eq_of_no_failure evs hok'
  rw [List.take_of_length_le hpage] at hreq
  obtain ⟨hclk, _, _, hps, hparse, _⟩ := hu
  have hreq2 : deleteRequests ((deleteOldBackups (deleteOldBackups w).2).2.since
      (deleteOldBackups w).2) = [] := by
    by_cases hl2 : listingSucceeds (deleteOldBackups w).2
    · rw [(deleteOldBackups_observed _ hl2).1, List.map_eq_nil_iff, List.filter_eq_nil_iff]
      intro g hg hexp
      have hg1 : g ∈ (deleteOldBackups w).2.drive := List.mem_of_mem_take hg
      rw [hdrive] at hg1
      obtain ⟨hgw, hgid⟩ := List.mem_filter.mp hg1
      rw [hparse, hclk] at hexp
      unfold expired at hexp
      cases hT : w.parseRFC3339 g.CreatedTime with
      | none => simp [hT] at hexp
      | some T =>
        simp only [hT, decide_eq_true_eq] at hexp
        have h1 := hclock g hgw T hT hexp
        have hexp1 : expired w.parseRFC3339 (w.clock (w.step + 4)) g = true := by
          simp [expired, hT, h1]
        have hmem : g.Id ∈ deleteRequests evs := by
          rw [hreq]
          exact List.mem_map_of_mem _ (List.mem_filter.mpr ⟨hgw, hexp1⟩)
        rw [← hdel] at hmem
        simp [hmem] at hgid
    · obtain ⟨_, evs2, _, ht2, hr2, _⟩ := deleteOldBackups_not_listed _ hl2
      rw [since_append _ _ _ ht2]
      exact hr2
  have hdel2 : deletedIds ((deleteOldBackups (deleteOldBackups w).2).2.since
      (deleteOldBackups w).2) = [] := by
    have hsub := deletedIds_sublist ((deleteOldBackups (deleteOldBackups w).2).2.since
      (deleteOldBackups w).2)
    rw [hreq2] at hsub
    exact List.sublist_nil.mp hsub
  refine ⟨hreq2, hdel2, ?_⟩
  intro hl2
  have h2 := (deleteOldBackups_observed _ ((listed_iff _).mp hl2)).2.1
  rw [hdel2] at h2
  exact h2

/-- C9 at `threeBackups`, where nothing fails and the clock stands still: the
first pass deletes the 31-day object, the second issues no request. -/
theorem C9_witness :
    deleteRequests ((deleteOldBackups (deleteOldBackups threeBackups).2).2.since
      (deleteOldBackups threeBackups).2) = [] ∧
    deletedIds ((deleteOldBackups threeBackups).2.since threeBackups) = ["id31"] :=
  ⟨(C9_second_pass_deletes_nothing threeBackups threeBackups_listed (by decide)
      (by rw [threeBackups_run]; intro id e hm; simp at hm) (fun _ _ _ _ h => h)).1,
    by rw [threeBackups_run]; decide⟩

end PgBackuper
